import Mathlib

/-! # Camino coreth: block verification and the CollectRewards sub-protocol

A shallow embedding of `plugin/evm/camino_collect_rewards_tx.go` and
`plugin/evm/block.go`.

Conventions of the embedding:

* a Go `uint64` is a `Nat`, every `uint64` operation that can wrap is written
  with an explicit `% 2 ^ 64`; `(*big.Int).Uint64()` keeps the low 64 bits of
  the absolute value;
* a `*big.Int` is an `Int` (a `Nat` where the value is never negative),
  `big.Int.Div` and `big.Int.Mod` are Euclidean;
* a function that mutates its receiver or an argument in place returns the
  mutated value next to what the Go function returns;
* a call into a collaborator that lives outside the two files is a field of
  `Config` or `VM`, and, where a claim speaks about which calls are made, it
  is recorded in a list of `Event`s.
-/

namespace Coreth

/-! ## Basic types -/

/-- A 20-byte `common.Address` / `ids.ShortID`, read as a big-endian number. -/
abbrev EthAddress := Nat

/-- A 32-byte `common.Hash`, read as a big-endian number. -/
abbrev Hash := Nat

/-- A 32-byte `ids.ID`, read as a big-endian number. -/
abbrev ID := Nat

/-- Error values. The package-level `errors.New` variables are one constructor
each, `fmt.Errorf` values carry their text, and `%w` wrapping keeps the wrapped
error. -/
inductive GoError
  | errWrongInputCount
  | errWrongExportCount
  | errExportLimit
  | errTimeNotPassed
  | errInsufficientFunds
  | errInvalidNonce
  | errAssetIDMismatch
  | errNoExportOutputs
  | errMissingUTXOs
  | errInvalidBlock
  /-- Error built by `fmt.Errorf(text)`. -/
  | errorf (text : String)
  /-- Error built by `fmt.Errorf(text + ": %w", wrapped)`. -/
  | wrapf (text : String) (wrapped : GoError)
  /-- Error built by `fmt.Errorf("%w: %s", wrapped, shown)`. -/
  | wrapShow (wrapped : GoError) (shown : GoError)
  /-- The error of a shared-memory read that names a key with no record. -/
  | MissingKeyError
  /-- Error value handed back by a collaborator outside the two files. -/
  | foreign (code : Nat)
  deriving DecidableEq, Repr

/-- The chain walked by `errors.Is(err, target)`. -/
def GoError.Is : GoError → GoError → Bool
  | .wrapf t w, target => (GoError.wrapf t w == target) || w.Is target
  | .wrapShow w s, target => (GoError.wrapShow w s == target) || w.Is target
  | e, target => e == target

/-- What a modelled Go function call ends with. -/
inductive Ret
  /-- The call returned a `nil` error. -/
  | nil
  /-- The call returned a non-nil error. -/
  | error (e : GoError)
  /-- The call did not return: a run-time panic (nil dereference). -/
  | panicked
  deriving DecidableEq, Repr

/-- A returned Go `error` value as the end of a call. -/
def Ret.ofError : Option GoError → Ret
  | none => .nil
  | some e => .error e

/-! ## Constants of `camino_collect_rewards_tx.go` -/

def FeeRewardMinAmountToExport : Nat := 200000

/-- The address `common.HexToAddress("0x010000000000000000000000000000000000000c")`. -/
def FeeRewardAddress : EthAddress := 0x010000000000000000000000000000000000000c

/-- The short id `ids.ToShortID(FeeRewardAddress.Bytes())`: the same 20 bytes. -/
def FeeRewardAddressID : EthAddress := FeeRewardAddress

/-- The slot `common.Hash{0x01}`: first byte 1, the other 31 bytes zero. -/
def BalanceSlot : Hash := 0x01 * 2 ^ 248

/-- The slot `common.Hash{0x02}`: first byte 2, the other 31 bytes zero. -/
def TimestampSlot : Hash := 0x02 * 2 ^ 248

def TimeInterval : Nat := 3600

def ExportRewardRate : Nat := 300000

def IncentivePoolRewardRate : Nat := 300000

/-- The value `new(big.Int).SetUint64(1.000_000)`. The Go literal `1.000_000`
has a decimal point: it is the floating-point constant 1.0 written with a digit
separator, and as an argument of type `uint64` it is the integer 1. -/
def RateDenominator : Nat := 1

/-- Package-level values declared in other files of the repository
(`plugin/evm/vm.go`, `constants/`), taken as parameters. -/
structure Config where
  /-- The factor `x2cRate` between native-asset subunits and EVM balances. -/
  x2cRate : Nat
  /-- The address `gconstants.BlackholeAddr`, the protocol source of rewards. -/
  BlackholeAddr : EthAddress
  /-- The asset id `vm.ctx.AVAXAssetID`. -/
  AVAXAssetID : ID
  /-- The network id `vm.ctx.NetworkID`. -/
  NetworkID : Nat
  /-- The chain id `vm.ctx.ChainID`. -/
  ChainID : ID
  /-- The chain id `constants.PlatformChainID`. -/
  PlatformChainID : ID
  /-- The rate is `big.NewInt` of a non-zero constant. -/
  x2cRate_pos : 0 < x2cRate

/-! ## The ledger -/

/-- Modelled from the spec: the account ledger `state.StateDB` of package
`core/state`, which is not among the sources: per account a balance, an
execution nonce and storage slots, read and written by address. -/
structure StateDB where
  balance : EthAddress → Nat
  nonce : EthAddress → Nat
  storage : EthAddress → Hash → Nat

namespace StateDB

def GetBalance (s : StateDB) (a : EthAddress) : Nat := s.balance a

def SubBalance (s : StateDB) (a : EthAddress) (amount : Nat) : StateDB :=
  { s with balance := Function.update s.balance a (s.balance a - amount) }

def AddBalance (s : StateDB) (a : EthAddress) (amount : Nat) : StateDB :=
  { s with balance := Function.update s.balance a (s.balance a + amount) }

def GetState (s : StateDB) (a : EthAddress) (slot : Hash) : Nat := s.storage a slot

def SetState (s : StateDB) (a : EthAddress) (slot : Hash) (value : Hash) : StateDB :=
  { s with storage := Function.update s.storage a (Function.update (s.storage a) slot value) }

def GetNonce (s : StateDB) (a : EthAddress) : Nat := s.nonce a

def SetNonce (s : StateDB) (a : EthAddress) (n : Nat) : StateDB :=
  { s with nonce := Function.update s.nonce a n }

end StateDB

/-- The conversion `common.BigToHash`: the big-endian bytes of the absolute
value, cropped from the left to 32 bytes. -/
def BigToHash (b : Int) : Hash := b.natAbs % 2 ^ 256

/-! ## Transactions -/

structure EVMInput where
  Address : EthAddress
  /-- Field of type `uint64`. -/
  Amount : Nat
  AssetID : ID
  /-- Field of type `uint64`. -/
  Nonce : Nat
  deriving DecidableEq, Repr

structure OutputOwners where
  Locktime : Nat
  Threshold : Nat
  Addrs : List EthAddress
  deriving DecidableEq, Repr

/-- The `Out` of an `avax.TransferableOutput`: a `*secp256k1fx.TransferOutput`
or a value of another type. -/
inductive TransferableOut
  | TransferOutput (Amt : Nat) (owners : OutputOwners)
  | otherType (tag : Nat)
  deriving DecidableEq, Repr

structure TransferableOutput where
  Asset : ID
  Out : TransferableOut
  deriving DecidableEq, Repr

structure UnsignedExportTx where
  /-- The id kept in the embedded `avax.Metadata`, read by `ID()`. -/
  id : ID
  NetworkID : Nat
  BlockchainID : ID
  DestinationChain : ID
  Ins : List EVMInput
  ExportedOutputs : List TransferableOutput
  deriving DecidableEq, Repr

structure UnsignedCollectRewardsTx extends UnsignedExportTx where
  /-- The field `blockTime *big.Int`, `none` for a nil pointer. -/
  blockTime : Option Int
  deriving DecidableEq, Repr

/-! ## Reward arithmetic and state transfer -/

/-- The function `calculateRate(amt uint64, rate *big.Int) uint64`. -/
def calculateRate (amt : Nat) (rate : Nat) : Nat :=
  (amt * rate / RateDenominator) % 2 ^ 64

/-- The `uint64` sum `amountExport + amountIncentive` of `EVMStateTransfer`. -/
def exportPlusIncentive (amt : Nat) : Nat :=
  (calculateRate amt ExportRewardRate + calculateRate amt IncentivePoolRewardRate) % 2 ^ 64

/-- The `amountToBurn` of `EVMStateTransfer`: a `uint64` subtraction. -/
def amountToBurn (amt : Nat) : Nat :=
  ((exportPlusIncentive amt * RateDenominator / (ExportRewardRate + IncentivePoolRewardRate))
      % 2 ^ 64 + 2 ^ 64 - exportPlusIncentive amt) % 2 ^ 64

/-- Outcome of `EVMStateTransfer`: what it returns, the ledger as the call
leaves it (the `StateDB` is mutated in place, also when an error is returned)
and the transaction's `blockTime` as the call leaves it. -/
structure TransferOutcome where
  ret : Ret
  state : StateDB
  blockTime : Option Int

/-- The method `UnsignedCollectRewardsTx.EVMStateTransfer`. -/
def EVMStateTransfer (cfg : Config) (ucx : UnsignedCollectRewardsTx) (state : StateDB) :
    TransferOutcome :=
  match ucx.Ins with
  | [src] =>
    match ucx.ExportedOutputs with
    | [_] =>
      let amountIncentive := calculateRate src.Amount IncentivePoolRewardRate
      let amount := exportPlusIncentive src.Amount * cfg.x2cRate
      let balance := state.GetBalance src.Address
      if balance < amount then
        ⟨.error .errInsufficientFunds, state, ucx.blockTime⟩
      else
        let state := state.SubBalance src.Address amount
        let balance := balance - amount
        let amountToBurnEvm := amountToBurn src.Amount * cfg.x2cRate
        let lastPayoutBalance := state.GetState src.Address BalanceSlot + amountToBurnEvm
        if lastPayoutBalance > balance then
          ⟨.error (.errorf "payed out fees exceed balance"), state, ucx.blockTime⟩
        else
          let state := state.SetState src.Address BalanceSlot (BigToHash lastPayoutBalance)
          let state := state.AddBalance FeeRewardAddressID (amountIncentive * cfg.x2cRate)
          let nextTimeStamp := state.GetState src.Address TimestampSlot
          -- `nextTimeStamp.Add(nextTimeStamp, TimeInterval)` writes into the big.Int
          -- it is called on: into `ucx.blockTime` itself when the marker was zero.
          let stepped : Option (Int × Option Int) :=
            if nextTimeStamp = 0 then
              match ucx.blockTime with
              | none => none
              | some t => some (t + TimeInterval, some (t + TimeInterval))
            else some ((nextTimeStamp : Int) + TimeInterval, ucx.blockTime)
          match stepped with
          | none => ⟨.panicked, state, ucx.blockTime⟩
          | some (next, blockTime) =>
            let state := state.SetState src.Address TimestampSlot (BigToHash next)
            if state.GetNonce src.Address ≠ src.Nonce then
              ⟨.error .errInvalidNonce, state, blockTime⟩
            else
              ⟨.nil, state.SetNonce src.Address ((src.Nonce + 1) % 2 ^ 64), blockTime⟩
    | _ => ⟨.error .errWrongExportCount, state, ucx.blockTime⟩
  | _ => ⟨.error .errWrongInputCount, state, ucx.blockTime⟩

/-! ## Atomic operations -/

/-- An `avax.UTXO`. -/
structure UTXO where
  TxID : ID
  OutputIndex : Nat
  Asset : ID
  Out : TransferableOut
  deriving DecidableEq, Repr

/-- An `atomic.Element`; keys and values are byte strings. -/
structure Element where
  Key : ID
  Value : List Nat
  Traits : List EthAddress
  deriving DecidableEq, Repr

/-- An `atomic.Requests`. -/
structure Requests where
  RemoveRequests : List ID
  PutRequests : List Element
  deriving DecidableEq, Repr

/-- The codec and hashing that `AtomicOps` calls, declared outside the two
files. -/
structure Codec where
  /-- The call `Codec.Marshal(codecVersion, utxo)`. -/
  Marshal : UTXO → GoError ⊕ List Nat
  /-- The id `utxo.InputID()`, a hash of the transaction id and output index. -/
  InputID : ID → Nat → ID

/-- The method `UnsignedCollectRewardsTx.AtomicOps`. -/
def UnsignedCollectRewardsTx.AtomicOps (codec : Codec) (ucx : UnsignedCollectRewardsTx) :
    GoError ⊕ (ID × Requests) :=
  let txID := ucx.id
  match ucx.ExportedOutputs with
  | [out] =>
    match out.Out with
    | .TransferOutput amt owners =>
      let newOut := TransferableOut.TransferOutput (calculateRate amt ExportRewardRate) owners
      let utxo : UTXO := ⟨txID, 0, out.Asset, newOut⟩
      match codec.Marshal utxo with
      | .inl err => .inl err
      | .inr utxoBytes =>
        let elem : Element := ⟨codec.InputID utxo.TxID utxo.OutputIndex, utxoBytes, owners.Addrs⟩
        .inr (ucx.DestinationChain, ⟨[], [elem]⟩)
    | .otherType _ => .inl .errNoExportOutputs
  | _ => .inl .errWrongExportCount

/-- An implementation of the interface `UnsignedAtomicTx`: the CollectRewards
transaction of this file, or a transaction of another file (Import, Export),
which is given by its id and by what its `AtomicOps` returns. -/
inductive UnsignedAtomicTx
  | collectRewards (ucx : UnsignedCollectRewardsTx)
  | otherTx (id : ID) (atomicOps : GoError ⊕ (ID × Requests))
  deriving DecidableEq, Repr

/-- The interface call `utx.AtomicOps()`. -/
def UnsignedAtomicTx.AtomicOps (codec : Codec) : UnsignedAtomicTx → GoError ⊕ (ID × Requests)
  | .collectRewards ucx => ucx.AtomicOps codec
  | .otherTx _ ops => ops

/-- A signed transaction `Tx`; its credentials play no part here. -/
structure Tx where
  UnsignedAtomicTx : UnsignedAtomicTx
  deriving DecidableEq, Repr

/-- Modelled from the spec: the shared cross-chain ledger
(`get(chainId, keys) -> records | MissingKeyError`), which is not among the
sources: per chain, the value stored under a key, if any. -/
structure SharedMemory where
  records : ID → ID → Option (List Nat)

/-- The call `SharedMemory.Get(chainID, keys)`. -/
def SharedMemory.Get (sm : SharedMemory) (chainID : ID) (keys : List ID) :
    GoError ⊕ List (List Nat) :=
  if keys.all (fun k => (sm.records chainID k).isSome) then
    .inr (keys.filterMap (sm.records chainID))
  else .inl .MissingKeyError

/-! ## Blocks -/

/-- The status `choices.Status`. -/
inductive Status
  | Unknown
  | Processing
  | Rejected
  | Accepted
  deriving DecidableEq, Repr

/-- The fields of a `types.Header` that the two files read. -/
structure Header where
  ParentHash : Hash
  Number : Nat
  Time : Nat
  deriving DecidableEq, Repr

/-- A `types.Block`: its hash and its header. -/
structure EthBlock where
  Hash : Hash
  Header : Header
  deriving DecidableEq, Repr

/-- The struct `Block`. The back-pointer `vm` is left out: every block belongs
to the one `VM` that the functions below take as an argument. -/
structure Block where
  id : ID
  ethBlock : Option EthBlock
  status : Status
  atomicTxs : List Tx
  deriving DecidableEq, Repr

/-- The rule-set `params.Rules`, identified by a number. -/
abbrev Rules := Nat

/-- The calls into collaborators of which the claims speak. -/
inductive Event
  /-- The call `syntacticBlockValidator.SyntacticVerify(b, rules)`. -/
  | SyntacticVerify (b : Block) (rules : Rules)
  /-- The call `vm.GetBlockInternal(ctx, id)`. -/
  | GetBlockInternal (id : ID)
  /-- The call `utx.AtomicOps()` on an atomic transaction. -/
  | AtomicOps (tx : Tx)
  /-- The call `SharedMemory.Get(chainID, keys)`. -/
  | SharedMemoryGet (chainID : ID) (keys : List ID)
  /-- The call `blockChain.InsertBlockManual(ethBlock, writes)`. -/
  | InsertBlockManual (ethBlock : EthBlock) (writes : Bool)
  /-- The call `atomicBackend.GetVerifiedAtomicState(hash)`. -/
  | GetVerifiedAtomicState (hash : Hash)
  /-- The call `Reject()` on the staged view found for a hash. -/
  | AtomicStateReject (hash : Hash)
  /-- The call `vm.issueTx(tx, local)`. -/
  | issueTx (tx : Tx) (isLocal : Bool)
  /-- The call `vm.mempool.RemoveTx(tx)`. -/
  | RemoveTx (tx : Tx)
  /-- The call `vm.blockChain.Accept(ethBlock)`. -/
  | blockChainAccept (ethBlock : EthBlock)
  /-- The call `vm.acceptedBlockDB.Put(lastAcceptedKey, id)`. -/
  | acceptedBlockDBPut (id : ID)
  /-- The call `vm.db.CommitBatch()`. -/
  | CommitBatch
  /-- The call `Accept(commitBatch)` on the staged view found for a hash. -/
  | AtomicStateAccept (hash : Hash)
  /-- The call `vm.TriggerRewardsTx(b)`; the calls it makes follow it. -/
  | TriggerRewardsTx
  /-- The call `vm.TriggerCommandTx(b)`. -/
  | TriggerCommandTx
  /-- The deferred call `vm.db.Abort()`. -/
  | dbAbort
  /-- The call `vm.blockChain.Reject(ethBlock)`. -/
  | blockChainReject (ethBlock : EthBlock)
  deriving DecidableEq, Repr

/-! ## The deferred-check registry -/

/-- The struct `DeferedChecks`: its Go map from ids to blocks, kept as a list
of entries in which no id occurs twice. -/
structure DeferedChecks where
  deferedChecks : List (ID × Block)
  nodup : (deferedChecks.map Prod.fst).Nodup

namespace DeferedChecks

/-- The constructor `NewDeferedChecks`. -/
def NewDeferedChecks : DeferedChecks := ⟨[], List.nodup_nil⟩

/-- The method `Count`. -/
def Count (d : DeferedChecks) : Nat := d.deferedChecks.length

/-- The map read `d.deferedChecks[id]`. -/
def get (d : DeferedChecks) (id : ID) : Option Block := d.deferedChecks.lookup id

/-- The statement `delete(d.deferedChecks, id)`. -/
def delete (d : DeferedChecks) (id : ID) : DeferedChecks :=
  { deferedChecks := d.deferedChecks.filter (fun e => e.1 ≠ id)
    nodup := d.nodup.sublist ((List.filter_sublist _).map Prod.fst) }

/-- The method `Push`: the map write `d.deferedChecks[id] = b`. -/
def Push (d : DeferedChecks) (id : ID) (b : Block) : DeferedChecks :=
  { deferedChecks := (id, b) :: (d.delete id).deferedChecks
    nodup := by
      rw [List.map_cons, List.nodup_cons]
      refine ⟨?_, (d.delete id).nodup⟩
      simp [delete, List.mem_map, List.mem_filter] }

end DeferedChecks

/-! ## The VM -/

/-- What `vm.GetBlockInternal` hands back: a `*Block`, or a block of another
type, on which the type assertion `parentInf.(*Block)` fails. -/
inductive InternalBlock
  | block (b : Block)
  | otherType
  deriving DecidableEq, Repr

/-- A staged cross-chain view, as far as `block.go` uses it: what its `Reject()`
returns. -/
structure AtomicState where
  RejectResult : Option GoError
  deriving DecidableEq, Repr

/-- The collaborators that the two files reach through the `VM`; the registry
`vm.DeferedChecks`, which the files mutate, is passed next to it. -/
structure VM where
  cfg : Config
  codec : Codec
  /-- The call `vm.blockChain.State()`. -/
  State : GoError ⊕ StateDB
  /-- The call `vm.GetCurrentNonce(address)`. -/
  GetCurrentNonce : EthAddress → GoError ⊕ Nat
  /-- The call `tx.Sign(vm.codec, nil)`: an error, or the id that the signed
  bytes give the transaction. -/
  Sign : UnsignedCollectRewardsTx → GoError ⊕ ID
  /-- The call `utx.Verify(vm.ctx, vm.currentRules())`. -/
  Verify : UnsignedCollectRewardsTx → Option GoError
  /-- The call `chainConfig.CaminoRules(number, time)`. -/
  CaminoRules : Nat → Nat → Rules
  /-- The call `syntacticBlockValidator.SyntacticVerify(b, rules)`. -/
  SyntacticVerify : Block → Rules → Option GoError
  /-- The call `vm.GetBlockInternal(ctx, id)`. -/
  GetBlockInternal : ID → GoError ⊕ InternalBlock
  /-- The call `atomicBackend.IsBonus(height, hash)`. -/
  IsBonus : Nat → Hash → Bool
  bootstrapped : Bool
  /-- The shared memory `vm.ctx.SharedMemory`. -/
  SharedMemory : SharedMemory
  /-- The call `atomicBackend.GetVerifiedAtomicState(hash)`, before an insertion. -/
  GetVerifiedAtomicState : Hash → GoError ⊕ AtomicState
  /-- The call `blockChain.InsertBlockManual(ethBlock, writes)`: the error it
  returns, and the staged views of the atomic backend as the insertion leaves
  them. -/
  InsertBlockManual : EthBlock → Bool → Option GoError × (Hash → GoError ⊕ AtomicState)
  /-- The generic export verification `UnsignedExportTx.SemanticVerify(vm, stx,
  block, baseFee, rules)`, which is defined in another file. -/
  ExportSemanticVerify : UnsignedExportTx → Tx → Block → Option Int → Rules → Option GoError
  /-- The call `vm.blockChain.Accept(ethBlock)`. -/
  blockChainAccept : EthBlock → Option GoError
  /-- The call `vm.acceptedBlockDB.Put(lastAcceptedKey, id)`. -/
  acceptedBlockDBPut : ID → Option GoError
  /-- The call `vm.db.CommitBatch()`: the error, if it returns one. -/
  CommitBatch : Option GoError
  /-- The call `Accept(commitBatch)` on the staged view found for a hash. -/
  AtomicStateAccept : Hash → Option GoError
  /-- The call `vm.blockChain.Reject(ethBlock)`. -/
  blockChainReject : EthBlock → Option GoError
  /-- The call `vm.issueTx(tx, local)`. -/
  issueTx : Tx → Bool → Option GoError

/-! ## The reward trigger -/

/-- The method `VM.NewCollectRewardsTx`: the two values it returns. -/
def NewCollectRewardsTx (vm : VM) (amount : Nat) : Option Tx × Option GoError :=
  match vm.GetCurrentNonce vm.cfg.BlackholeAddr with
  | .inl err => (none, some err)
  | .inr nonce =>
    let utx : UnsignedCollectRewardsTx :=
      { id := 0
        NetworkID := vm.cfg.NetworkID
        BlockchainID := vm.cfg.ChainID
        DestinationChain := vm.cfg.PlatformChainID
        Ins := [⟨vm.cfg.BlackholeAddr, amount, vm.cfg.AVAXAssetID, nonce⟩]
        ExportedOutputs :=
          [⟨vm.cfg.AVAXAssetID, .TransferOutput amount ⟨0, 1, [FeeRewardAddressID]⟩⟩]
        blockTime := none }
    match vm.Sign utx with
    | .inl err => (none, some err)
    | .inr id =>
      let utx := { utx with id := id }
      (some ⟨.collectRewards utx⟩, vm.Verify utx)

/-- The amount `balanceAvax` that `TriggerRewardsTx` computes from the ledger. -/
def balanceAvax (cfg : Config) (state : StateDB) : Nat :=
  let balance : Int :=
    (state.GetBalance cfg.BlackholeAddr : Int) - (state.GetState cfg.BlackholeAddr BalanceSlot : Int)
  (Int.ediv balance (cfg.x2cRate : Int)).natAbs % 2 ^ 64

/-- The method `VM.TriggerRewardsTx`: the calls to `vm.issueTx` it makes. -/
def TriggerRewardsTx (vm : VM) : List Event :=
  match vm.State with
  | .inl _ => []
  | .inr state =>
    let balanceAvax := balanceAvax vm.cfg state
    if calculateRate balanceAvax ExportRewardRate < FeeRewardMinAmountToExport then []
    else
      match NewCollectRewardsTx vm balanceAvax with
      | (some tx, none) => [.issueTx tx true]
      | _ => []

/-- The two transfers of one transaction applied in succession to the same
ledger object: the second call starts from the ledger and the `blockTime` that
the first call left. -/
def EVMStateTransferTwice (cfg : Config) (ucx : UnsignedCollectRewardsTx) (s : StateDB) :
    TransferOutcome × TransferOutcome :=
  let first := EVMStateTransfer cfg ucx s
  (first, EVMStateTransfer cfg { ucx with blockTime := first.blockTime } first.state)

/-! ## Block verification -/

/-- The method `Block.Parent`. -/
def EthBlock.ParentHash (e : EthBlock) : ID := e.Header.ParentHash

/-- The method `NumberU64`, which `Block.Height` returns. -/
def EthBlock.NumberU64 (e : EthBlock) : Nat := e.Header.Number % 2 ^ 64

/-- The method `DeferedChecks.Verify`: the error it returns, the registry as
it leaves it, and the validator calls it makes. -/
def DeferedChecks.Verify (vm : VM) (d : DeferedChecks) (b : Block) (rules : Rules) :
    Option GoError × DeferedChecks × List Event :=
  match d.get b.id with
  | some anchestor =>
    (vm.SyntacticVerify anchestor rules, d.delete b.id, [.SyntacticVerify anchestor rules])
  | none => (none, d, [])

/-- The method `Block.syntacticVerify`, on a receiver that may be nil: the
error it returns, the registry as it leaves it, and the calls it makes. -/
def syntacticVerify (vm : VM) (d : DeferedChecks) (b : Option Block) :
    Option GoError × DeferedChecks × List Event :=
  match b with
  | none => (some .errInvalidBlock, d, [])
  | some b =>
    match b.ethBlock with
    | none => (some .errInvalidBlock, d, [])
    | some ethBlock =>
      let header := ethBlock.Header
      let rules := vm.CaminoRules header.Number header.Time
      match DeferedChecks.Verify vm d b rules with
      | (some err, d, ev) => (some err, d, ev)
      | (none, d, ev) =>
        let ev := ev ++ [.SyntacticVerify b rules]
        match vm.SyntacticVerify b rules with
        | none => (none, d, ev)
        | some err =>
          if ethBlock.Header.Number > 0 then
            let ev := ev ++ [.GetBlockInternal ethBlock.ParentHash]
            match vm.GetBlockInternal ethBlock.ParentHash with
            | .inr (.block parent) =>
              match parent.ethBlock with
              | some parentEth =>
                let header := parentEth.Header
                let rules := vm.CaminoRules header.Number header.Time
                (vm.SyntacticVerify b rules, d, ev ++ [.SyntacticVerify b rules])
              | none => (some (.errorf "cannot extract block"), d, ev)
            | .inr .otherType => (some (.errorf "cannot extract block"), d, ev)
            | .inl _ =>
              -- We check the syntax later using the parent block
              (none, d.Push ethBlock.ParentHash b, ev)
          else (some err, d, ev)

/-- The loop of `verifyUTXOsPresent` over the atomic transactions. -/
def verifyUTXOsPresentLoop (vm : VM) : List Tx → Option GoError × List Event
  | [] => (none, [])
  | atomicTx :: rest =>
    match atomicTx.UnsignedAtomicTx.AtomicOps vm.codec with
    | .inl err => (some err, [.AtomicOps atomicTx])
    | .inr (chainID, requests) =>
      match vm.SharedMemory.Get chainID requests.RemoveRequests with
      | .inl err =>
        (some (.wrapShow .errMissingUTXOs err),
          [.AtomicOps atomicTx, .SharedMemoryGet chainID requests.RemoveRequests])
      | .inr _ =>
        let (err, ev) := verifyUTXOsPresentLoop vm rest
        (err, .AtomicOps atomicTx :: .SharedMemoryGet chainID requests.RemoveRequests :: ev)

/-- The method `Block.verifyUTXOsPresent`: what it ends with and the calls it
makes. On a block without body `b.Height()` dereferences nil. -/
def verifyUTXOsPresent (vm : VM) (b : Block) : Ret × List Event :=
  match b.ethBlock with
  | none => (.panicked, [])
  | some ethBlock =>
    if vm.IsBonus ethBlock.NumberU64 b.id then (.nil, [])
    else if !vm.bootstrapped then (.nil, [])
    else
      match verifyUTXOsPresentLoop vm b.atomicTxs with
      | (none, ev) => (.nil, ev)
      | (some err, ev) => (.error err, ev)

/-- The method `Block.verify`: what it ends with, the registry as it leaves
it, and the calls it makes. -/
def verify (vm : VM) (d : DeferedChecks) (b : Block) (writes : Bool) :
    Ret × DeferedChecks × List Event :=
  match syntacticVerify vm d (some b) with
  | (some err, d, ev) => (.error (.wrapf "syntactic block verification failed" err), d, ev)
  | (none, d, ev) =>
    match verifyUTXOsPresent vm b with
    | (.nil, ev2) =>
      match b.ethBlock with
      | none => (.panicked, d, ev ++ ev2)
      | some ethBlock =>
        let ev := ev ++ ev2 ++ [.InsertBlockManual ethBlock writes]
        let (err, staged) := vm.InsertBlockManual ethBlock writes
        if err ≠ none ∨ !writes then
          -- the error of `Reject()` is ignored, the insertion's error is returned
          match staged ethBlock.Hash with
          | .inr _ =>
            (.ofError err, d,
              ev ++ [.GetVerifiedAtomicState ethBlock.Hash, .AtomicStateReject ethBlock.Hash])
          | .inl _ => (.ofError err, d, ev ++ [.GetVerifiedAtomicState ethBlock.Hash])
        else (.nil, d, ev)
    | (r, ev2) => (r, d, ev ++ ev2)

/-- The method `Block.Verify`. -/
def Verify (vm : VM) (d : DeferedChecks) (b : Block) : Ret × DeferedChecks × List Event :=
  verify vm d b true

/-! ## Semantic verification of CollectRewards -/

/-- The Go conversion `int64(x)` of a `uint64`. -/
def toInt64 (x : Nat) : Int :=
  if x % 2 ^ 64 < 2 ^ 63 then ((x % 2 ^ 64 : Nat) : Int) else ((x % 2 ^ 64 : Nat) : Int) - 2 ^ 64

/-- The seconds `block.Timestamp().Unix()`: the header time as an `int64`. -/
def EthBlock.TimestampUnix (e : EthBlock) : Int := toInt64 e.Header.Time

/-- The block time that `SemanticVerify` captures in `ucx.blockTime`: the
timestamp modulo `TimeInterval`. -/
def capturedBlockTime (e : EthBlock) : Int := Int.emod e.TimestampUnix (TimeInterval : Int)

/-- Outcome of `SemanticVerify`: what it returns and the transaction's
`blockTime` as the call leaves it. -/
structure SemanticVerifyOutcome where
  ret : Ret
  blockTime : Option Int
  deriving DecidableEq, Repr

/-- The method `UnsignedCollectRewardsTx.SemanticVerify`. -/
def SemanticVerify (vm : VM) (ucx : UnsignedCollectRewardsTx) (stx : Tx) (block : Block)
    (baseFee : Option Int) (rules : Rules) : SemanticVerifyOutcome :=
  match vm.ExportSemanticVerify ucx.toUnsignedExportTx stx block baseFee rules with
  | some err => ⟨.error err, ucx.blockTime⟩
  | none =>
    match ucx.Ins with
    | [src] =>
      match ucx.ExportedOutputs with
      | [out] =>
        match out.Out with
        | .otherType _ => ⟨.error (.errorf "wrong output type"), ucx.blockTime⟩
        | .TransferOutput _ owners =>
          if out.Asset ≠ vm.cfg.AVAXAssetID then
            ⟨.error .errAssetIDMismatch, ucx.blockTime⟩
          else if src.Address ≠ vm.cfg.BlackholeAddr then
            ⟨.error (.errorf "invalid input address"), ucx.blockTime⟩
          else if owners.Addrs.length ≠ 1 ∨ owners.Addrs.head? ≠ some FeeRewardAddressID then
            ⟨.error (.errorf "invalid output owner"), ucx.blockTime⟩
          else
            match vm.State with
            | .inl err => ⟨.error err, ucx.blockTime⟩
            | .inr stateDB =>
              let triggerTime := stateDB.GetState vm.cfg.BlackholeAddr TimestampSlot
              match block.ethBlock with
              | none => ⟨.panicked, ucx.blockTime⟩
              | some ethBlock =>
                let blockTime := capturedBlockTime ethBlock
                if blockTime < (triggerTime : Int) then
                  ⟨.error .errTimeNotPassed, some blockTime⟩
                else if calculateRate src.Amount ExportRewardRate < FeeRewardMinAmountToExport then
                  ⟨.error .errExportLimit, some blockTime⟩
                else ⟨.nil, some blockTime⟩
      | _ => ⟨.error .errWrongExportCount, ucx.blockTime⟩
    | _ => ⟨.error .errWrongInputCount, ucx.blockTime⟩

/-! ## Accept and Reject -/

/-- The method `Block.Accept`: what it ends with, the block with the status the
call leaves, and the calls it makes. The log line reads `b.Height()`, which
dereferences nil on a block without body; `vm.db.Abort()` is deferred and runs
last on every path. -/
def Accept (vm : VM) (b : Block) : Ret × Block × List Event :=
  let b := { b with status := .Accepted }
  match b.ethBlock with
  | none => (.panicked, b, [.dbAbort])
  | some ethBlock =>
    let ev := [Event.blockChainAccept ethBlock]
    match vm.blockChainAccept ethBlock with
    | some err =>
      (.error (.wrapf ("chain could not accept " ++ toString b.id) err), b, ev ++ [.dbAbort])
    | none =>
      let ev := ev ++ [.acceptedBlockDBPut b.id]
      match vm.acceptedBlockDBPut b.id with
      | some err =>
        (.error (.wrapf ("failed to put " ++ toString b.id ++ " as the last accepted block") err),
          b, ev ++ [.dbAbort])
      | none =>
        let ev := ev ++ b.atomicTxs.map .RemoveTx ++ [.GetVerifiedAtomicState b.id]
        match vm.GetVerifiedAtomicState b.id with
        | .inl err => (.error err, b, ev ++ [.dbAbort])
        | .inr _ =>
          let ev := ev ++ [.CommitBatch]
          match vm.CommitBatch with
          | some err =>
            (.error (.wrapf ("could not create commit batch processing block[" ++
                toString b.id ++ "]") err), b, ev ++ [.dbAbort])
          | none =>
            let ev := ev ++ [.AtomicStateAccept b.id]
            match vm.AtomicStateAccept b.id with
            | some err => (.error err, b, ev ++ [.dbAbort])
            | none =>
              (.nil, b,
                ev ++ [.TriggerRewardsTx] ++ TriggerRewardsTx vm ++ [.TriggerCommandTx, .dbAbort])

/-- The loop of `Block.Reject` over the atomic transactions: each is removed
from the mempool and re-issued as non-local; a failure of `issueTx` is logged
and the loop goes on. -/
def reissueLoop (vm : VM) : List Tx → List Event
  | [] => []
  | tx :: rest =>
    match vm.issueTx tx false with
    | some _ => .RemoveTx tx :: .issueTx tx false :: reissueLoop vm rest
    | none => .RemoveTx tx :: .issueTx tx false :: reissueLoop vm rest

/-- The method `Block.Reject`: what it ends with, the block with the status the
call leaves, and the calls it makes. -/
def Reject (vm : VM) (b : Block) : Ret × Block × List Event :=
  let b := { b with status := .Rejected }
  match b.ethBlock with
  | none => (.panicked, b, [])
  | some ethBlock =>
    let ev := reissueLoop vm b.atomicTxs ++ [.GetVerifiedAtomicState b.id]
    match vm.GetVerifiedAtomicState b.id with
    | .inl err => (.error err, b, ev)
    | .inr atomicState =>
      let ev := ev ++ [.AtomicStateReject b.id]
      match atomicState.RejectResult with
      | some err => (.error err, b, ev)
      | none => (.ofError (vm.blockChainReject ethBlock), b, ev ++ [.blockChainReject ethBlock])

/-- The calls of an `Accept` in which every fallible step succeeds, in the order
the specification lists the side effects: finalize in the canonical chain,
persist the last accepted id, remove every atomic transaction from the mempool,
fetch the staged view, create the commit batch, commit the staged view, run the
reward trigger (with the calls it makes), run the other trigger. -/
def acceptCalls (vm : VM) (b : Block) (ethBlock : EthBlock) : List Event :=
  [.blockChainAccept ethBlock, .acceptedBlockDBPut b.id] ++ b.atomicTxs.map .RemoveTx ++
    [.GetVerifiedAtomicState b.id, .CommitBatch, .AtomicStateAccept b.id, .TriggerRewardsTx] ++
    TriggerRewardsTx vm ++ [.TriggerCommandTx]

/-- The calls of a `Reject` in which every fallible step succeeds: every atomic
transaction is removed from the mempool and re-issued as non-local, in block
order, then the staged view is fetched and rolled back and the chain removes
the block. -/
def rejectCalls (b : Block) (ethBlock : EthBlock) : List Event :=
  (b.atomicTxs.map (fun tx => [Event.RemoveTx tx, Event.issueTx tx false])).flatten ++
    [.GetVerifiedAtomicState b.id, .AtomicStateReject b.id, .blockChainReject ethBlock]

/-! ## Concrete data -/

def exampleConfig : Config :=
  { x2cRate := 1000000000
    BlackholeAddr := 0x0100000000000000000000000000000000000000
    AVAXAssetID := 7
    NetworkID := 1
    ChainID := 11
    PlatformChainID := 0
    x2cRate_pos := by decide }

/-- A ledger in which only the source account holds anything: its balance, its
nonce and its two reward markers. -/
def exampleLedger (balance nonce payout trigger : Nat) : StateDB :=
  { balance := fun a => if a = exampleConfig.BlackholeAddr then balance else 0
    nonce := fun a => if a = exampleConfig.BlackholeAddr then nonce else 0
    storage := fun a slot =>
      if a = exampleConfig.BlackholeAddr then
        (if slot = BalanceSlot then payout else if slot = TimestampSlot then trigger else 0)
      else 0 }

/-- The CollectRewards transaction that `NewCollectRewardsTx` builds for an
amount and a nonce, with a given `blockTime`. -/
def exampleTx (amount nonce : Nat) (blockTime : Option Int) : UnsignedCollectRewardsTx :=
  { id := 99
    NetworkID := exampleConfig.NetworkID
    BlockchainID := exampleConfig.ChainID
    DestinationChain := exampleConfig.PlatformChainID
    Ins := [⟨exampleConfig.BlackholeAddr, amount, exampleConfig.AVAXAssetID, nonce⟩]
    ExportedOutputs :=
      [⟨exampleConfig.AVAXAssetID, .TransferOutput amount ⟨0, 1, [FeeRewardAddressID]⟩⟩]
    blockTime := blockTime }

/-- A VM over a given ledger: the source nonce is 5, signing gives id 99,
rule-set 1 holds from time 1000 on and rule-set 0 before, the validator accepts
every block under rule-set 1 and only the block with id 77 under rule-set 0, no
block is known locally, no block is a bonus block, the engine is bootstrapped,
shared memory is empty, nothing is staged, and the generic export verification,
the chain, the databases and the mempool report no error. -/
def exampleVM (state : StateDB) : VM :=
  { cfg := exampleConfig
    codec := ⟨fun u => .inr [u.TxID, u.OutputIndex, u.Asset], fun txID index => txID + index⟩
    State := .inr state
    GetCurrentNonce := fun _ => .inr 5
    Sign := fun _ => .inr 99
    Verify := fun _ => none
    CaminoRules := fun _ time => if time < 1000 then 0 else 1
    SyntacticVerify := fun b rules => if rules = 1 ∨ b.id = 77 then none else some (.foreign 1)
    GetBlockInternal := fun _ => .inl (.foreign 404)
    IsBonus := fun _ _ => false
    bootstrapped := true
    SharedMemory := ⟨fun _ _ => none⟩
    GetVerifiedAtomicState := fun _ => .inl (.foreign 404)
    InsertBlockManual := fun _ _ => (none, fun _ => .inl (.foreign 404))
    ExportSemanticVerify := fun _ _ _ _ _ => none
    blockChainAccept := fun _ => none
    acceptedBlockDBPut := fun _ => none
    CommitBatch := none
    AtomicStateAccept := fun _ => none
    blockChainReject := fun _ => none
    issueTx := fun _ _ => none }


/-- A block with a body whose hash is its id. -/
def exampleBlock (id parent : ID) (number time : Nat) (txs : List Tx) : Block :=
  { id := id
    ethBlock := some ⟨id, ⟨parent, number, time⟩⟩
    status := .Unknown
    atomicTxs := txs }

/-- An Import transaction: its `AtomicOps` asks to remove the record with key
500 from chain 0. -/
def exampleImportTx : Tx := ⟨.otherTx 41 (.inr (0, ⟨[500], []⟩))⟩

/-- An Export transaction: its `AtomicOps` removes nothing. -/
def exampleExportTx : Tx := ⟨.otherTx 42 (.inr (0, ⟨[], []⟩))⟩

/-- A CollectRewards transaction without exported output: its `AtomicOps` fails
with `errWrongExportCount`. -/
def exampleNoOutputTx : Tx :=
  ⟨.collectRewards { exampleTx 1000000 5 none with ExportedOutputs := [] }⟩

/-- A block is staged: the atomic backend holds a staged view for every hash,
before and after an insertion, and `Reject()` on it succeeds. -/
def exampleStagedVM (state : StateDB) : VM :=
  { exampleVM state with
    GetVerifiedAtomicState := fun _ => .inr ⟨none⟩
    InsertBlockManual := fun _ _ => (none, fun _ => .inr ⟨none⟩) }

/-- An insertion that fails with error 7 and leaves a staged view for every
hash, on which `Reject()` fails with error 8. -/
def exampleFailingInsertVM (state : StateDB) : VM :=
  { exampleVM state with
    InsertBlockManual := fun _ _ => (some (.foreign 7), fun _ => .inr ⟨some (.foreign 8)⟩) }

/-- The CollectRewards transaction for amount 1000000 and nonce 5 whose single
output names the fixed destination address with a given threshold. -/
def exampleThresholdTx (threshold : Nat) : UnsignedCollectRewardsTx :=
  { exampleTx 1000000 5 none with
    ExportedOutputs :=
      [⟨exampleConfig.AVAXAssetID,
        .TransferOutput 1000000 ⟨0, threshold, [FeeRewardAddressID]⟩⟩] }

/-- Modelled from the spec: the generic Export verification that `SemanticVerify`
calls first at line 67 (`UnsignedExportTx.SemanticVerify`, which runs `Verify`
on every exported output) is not among the source files. This is its check of
an output's owners: a threshold above the number of owner addresses makes the
output unspendable, a threshold of zero with owner addresses present is
rejected, and the owner addresses must be sorted and unique. -/
def OutputOwners.Verify (out : OutputOwners) : Option GoError :=
  if out.Threshold > out.Addrs.length then some (.errorf "output is unspendable")
  else if out.Threshold = 0 ∧ out.Addrs.length > 0 then some (.errorf "output is unoptimized")
  else if ¬ out.Addrs.Pairwise (· < ·) then some (.errorf "addresses not sorted and unique")
  else none

/-- Modelled from the spec: the verification of one exported output inside the
generic Export verification, which is not among the source files. A transfer
output must carry a non-zero amount and owners that pass `OutputOwners.Verify`;
the verification of an output of another type is not modelled and accepts. -/
def TransferableOutput.Verify (out : TransferableOutput) : Option GoError :=
  match out.Out with
  | .TransferOutput amt owners =>
    if amt = 0 then some (.errorf "output has no value") else owners.Verify
  | .otherType _ => none

/-- Modelled from the spec: the loop of the generic Export verification over the
exported outputs, which is not among the source files: the outputs are verified
in order and the first error is returned. -/
def verifyExportedOutputs : List TransferableOutput → Option GoError
  | [] => none
  | out :: rest =>
    match out.Verify with
    | some err => some err
    | none => verifyExportedOutputs rest

/-- The example VM whose generic export verification verifies the exported
outputs and reports no other error. -/
def exampleCheckedVM (state : StateDB) : VM :=
  { exampleVM state with
    ExportSemanticVerify := fun utx _ _ _ _ => verifyExportedOutputs utx.ExportedOutputs }

/-- The parent is known locally: `GetBlockInternal` hands back a given block
for every id. -/
def exampleParentVM (state : StateDB) (parent : Block) : VM :=
  { exampleVM state with GetBlockInternal := fun _ => .inr (.block parent) }

/-- The calls on the staged views of the atomic backend. -/
def Event.isStagedViewCall : Event → Bool
  | .GetVerifiedAtomicState _ => true
  | .AtomicStateReject _ => true
  | _ => false

/-- The rate application with the denominator 1000000 that the specification
names ("export rate 300_000/1_000_000"), in exact integers:
`floor(amt * rate / 1000000)`. It is compared with `calculateRate`, which
divides by `RateDenominator`. -/
def specRate (amt rate : Nat) : Nat := amt * rate / 1000000

/-! # Theorems -/

/-! ## Shared lemmas -/

theorem BalanceSlot_ne_TimestampSlot : BalanceSlot ≠ TimestampSlot := by decide

theorem succ_mod_ne (n : Nat) : (n + 1) % 2 ^ 64 ≠ n := by
  intro h
  have h1 : (n + 1) % 2 ^ 64 < 2 ^ 64 := Nat.mod_lt _ (by positivity)
  rcases Nat.lt_or_ge (n + 1) (2 ^ 64) with h2 | h2
  · rw [Nat.mod_eq_of_lt h2] at h; omega
  · omega

theorem BigToHash_natCast (n : Nat) : BigToHash (n : Int) = n % 2 ^ 256 := by
  unfold BigToHash
  rw [Int.natAbs_ofNat]

/-- The code divides by 1: `calculateRate` is the product, cut to 64 bits. -/
theorem calculateRate_eq (amt rate : Nat) : calculateRate amt rate = amt * rate % 2 ^ 64 := by
  simp [calculateRate, RateDenominator]

/-- The transfer on a transaction with one input and one output, step by step. -/
theorem EVMStateTransfer_one (cfg : Config) (ucx : UnsignedCollectRewardsTx) (s : StateDB)
    (src : EVMInput) (out : TransferableOutput)
    (hIns : ucx.Ins = [src]) (hOuts : ucx.ExportedOutputs = [out]) :
    EVMStateTransfer cfg ucx s =
      if s.balance src.Address < exportPlusIncentive src.Amount * cfg.x2cRate then
        ⟨.error .errInsufficientFunds, s, ucx.blockTime⟩
      else
        let s1 := s.SubBalance src.Address (exportPlusIncentive src.Amount * cfg.x2cRate)
        let last := s.storage src.Address BalanceSlot + amountToBurn src.Amount * cfg.x2cRate
        if last > s.balance src.Address - exportPlusIncentive src.Amount * cfg.x2cRate then
          ⟨.error (.errorf "payed out fees exceed balance"), s1, ucx.blockTime⟩
        else
          let s3 := (s1.SetState src.Address BalanceSlot (BigToHash last)).AddBalance
            FeeRewardAddressID (calculateRate src.Amount IncentivePoolRewardRate * cfg.x2cRate)
          if s.storage src.Address TimestampSlot = 0 then
            match ucx.blockTime with
            | none => ⟨.panicked, s3, none⟩
            | some t =>
              let s4 := s3.SetState src.Address TimestampSlot (BigToHash (t + TimeInterval))
              if s.nonce src.Address ≠ src.Nonce then
                ⟨.error .errInvalidNonce, s4, some (t + TimeInterval)⟩
              else ⟨.nil, s4.SetNonce src.Address ((src.Nonce + 1) % 2 ^ 64), some (t + TimeInterval)⟩
          else
            let s4 := s3.SetState src.Address TimestampSlot
              (BigToHash ((s.storage src.Address TimestampSlot : Int) + TimeInterval))
            if s.nonce src.Address ≠ src.Nonce then
              ⟨.error .errInvalidNonce, s4, ucx.blockTime⟩
            else ⟨.nil, s4.SetNonce src.Address ((src.Nonce + 1) % 2 ^ 64), ucx.blockTime⟩ := by
  have hslot : TimestampSlot ≠ BalanceSlot := fun h => BalanceSlot_ne_TimestampSlot h.symm
  unfold EVMStateTransfer
  rw [hIns, hOuts]
  simp only [StateDB.GetBalance, StateDB.SubBalance, StateDB.AddBalance, StateDB.GetState,
    StateDB.SetState, StateDB.GetNonce, Function.update_same, Function.update_noteq hslot]
  split_ifs <;> first | rfl | (cases hb : ucx.blockTime <;> simp_all)

/-- A transfer that succeeds was given one input and one output, and leaves the
source nonce one above the declared nonce. -/
theorem EVMStateTransfer_nil (cfg : Config) (ucx : UnsignedCollectRewardsTx) (s : StateDB)
    (h : (EVMStateTransfer cfg ucx s).ret = .nil) :
    ∃ src out, ucx.Ins = [src] ∧ ucx.ExportedOutputs = [out] ∧
      (EVMStateTransfer cfg ucx s).state.nonce src.Address = (src.Nonce + 1) % 2 ^ 64 ∧
      (ucx.blockTime ≠ none → (EVMStateTransfer cfg ucx s).blockTime ≠ none) := by
  rcases hI : ucx.Ins with _ | ⟨src, _ | ⟨x, l⟩⟩
  · simp [EVMStateTransfer, hI] at h
  · rcases hO : ucx.ExportedOutputs with _ | ⟨out, _ | ⟨y, l⟩⟩
    · simp [EVMStateTransfer, hI, hO] at h
    · refine ⟨src, out, rfl, rfl, ?_⟩
      rw [EVMStateTransfer_one cfg ucx s src out hI hO] at h ⊢
      by_cases h1 : s.balance src.Address < exportPlusIncentive src.Amount * cfg.x2cRate
      · simp [h1] at h
      · by_cases h2 : s.storage src.Address BalanceSlot + amountToBurn src.Amount * cfg.x2cRate >
            s.balance src.Address - exportPlusIncentive src.Amount * cfg.x2cRate
        · simp [h1, h2] at h
        · by_cases h3 : s.storage src.Address TimestampSlot = 0
          · cases hb : ucx.blockTime with
            | none => simp [h1, h2, h3, hb] at h
            | some t =>
              by_cases h4 : s.nonce src.Address = src.Nonce
              · simp [h1, h2, h3, h4, StateDB.SetNonce]
              · simp [h1, h2, h3, hb, h4] at h
          · by_cases h4 : s.nonce src.Address = src.Nonce
            · simp [h1, h2, h3, h4, StateDB.SetNonce]
            · simp [h1, h2, h3, h4] at h
    · simp [EVMStateTransfer, hI, hO] at h
  · simp [EVMStateTransfer, hI] at h

/-- With a nonce that differs, a transfer ends in one of four ways. -/
theorem EVMStateTransfer_mismatch_ret (cfg : Config) (ucx : UnsignedCollectRewardsTx)
    (s : StateDB) (src : EVMInput) (out : TransferableOutput)
    (hIns : ucx.Ins = [src]) (hOuts : ucx.ExportedOutputs = [out])
    (hNonce : s.nonce src.Address ≠ src.Nonce) :
    (EVMStateTransfer cfg ucx s).ret = .error .errInsufficientFunds ∨
    (EVMStateTransfer cfg ucx s).ret = .error (.errorf "payed out fees exceed balance") ∨
    (EVMStateTransfer cfg ucx s).ret = .error .errInvalidNonce ∨
    ((EVMStateTransfer cfg ucx s).ret = .panicked ∧ ucx.blockTime = none) := by
  rw [EVMStateTransfer_one cfg ucx s src out hIns hOuts]
  by_cases h1 : s.balance src.Address < exportPlusIncentive src.Amount * cfg.x2cRate
  · simp [h1]
  · by_cases h2 : s.storage src.Address BalanceSlot + amountToBurn src.Amount * cfg.x2cRate >
        s.balance src.Address - exportPlusIncentive src.Amount * cfg.x2cRate
    · simp [h1, h2]
    · by_cases h3 : s.storage src.Address TimestampSlot = 0
      · cases hb : ucx.blockTime with
        | none => simp [h1, h2, h3, hb]
        | some t => simp [h1, h2, h3, hb, hNonce]
      · simp [h1, h2, h3, hNonce]

/-! ## State transfer of CollectRewards -/

/-- C1 (amended): for a transaction with one input and one output whose declared
nonce differs from the source account's nonce, `EVMStateTransfer` never succeeds
and leaves every nonce as it was. It returns `errInvalidNonce` exactly when the
funds check and the payout check pass and a next trigger time can be computed
(the marker is non-zero or `blockTime` is set); the nonce check is the last
step, so on that path the source has already been debited by
`(export + incentive) * x2cRate` and the incentive pool credited by
`incentive * x2cRate`. The call returns `errInsufficientFunds` exactly when the
funds check fails, and then no balance has changed; it returns the
payout-exceeds-balance error exactly when the funds check passes and the payout
check fails. -/
theorem EVMStateTransfer_nonce_mismatch (cfg : Config) (ucx : UnsignedCollectRewardsTx)
    (s : StateDB) (src : EVMInput) (out : TransferableOutput)
    (hIns : ucx.Ins = [src]) (hOuts : ucx.ExportedOutputs = [out])
    (hNonce : s.GetNonce src.Address ≠ src.Nonce) :
    (EVMStateTransfer cfg ucx s).ret ≠ .nil ∧
    (EVMStateTransfer cfg ucx s).state.nonce = s.nonce ∧
    ((EVMStateTransfer cfg ucx s).ret = .error .errInvalidNonce ↔
      (exportPlusIncentive src.Amount * cfg.x2cRate ≤ s.GetBalance src.Address ∧
        s.GetState src.Address BalanceSlot + amountToBurn src.Amount * cfg.x2cRate
          ≤ s.GetBalance src.Address - exportPlusIncentive src.Amount * cfg.x2cRate ∧
        (s.GetState src.Address TimestampSlot = 0 → ucx.blockTime ≠ none))) ∧
    ((EVMStateTransfer cfg ucx s).ret = .error .errInvalidNonce →
      (EVMStateTransfer cfg ucx s).state.balance =
        ((s.SubBalance src.Address (exportPlusIncentive src.Amount * cfg.x2cRate)).AddBalance
          FeeRewardAddressID
          (calculateRate src.Amount IncentivePoolRewardRate * cfg.x2cRate)).balance) ∧
    ((EVMStateTransfer cfg ucx s).ret = .error .errInsufficientFunds ↔
      s.GetBalance src.Address < exportPlusIncentive src.Amount * cfg.x2cRate) ∧
    (s.GetBalance src.Address < exportPlusIncentive src.Amount * cfg.x2cRate →
      (EVMStateTransfer cfg ucx s).state.balance = s.balance) ∧
    ((EVMStateTransfer cfg ucx s).ret = .error (.errorf "payed out fees exceed balance") ↔
      (exportPlusIncentive src.Amount * cfg.x2cRate ≤ s.GetBalance src.Address ∧
        s.GetBalance src.Address - exportPlusIncentive src.Amount * cfg.x2cRate <
          s.GetState src.Address BalanceSlot + amountToBurn src.Amount * cfg.x2cRate)) ∧
    ((EVMStateTransfer cfg ucx s).ret = .error .errInsufficientFunds →
      (EVMStateTransfer cfg ucx s).state.balance = s.balance) := by
  rw [EVMStateTransfer_one cfg ucx s src out hIns hOuts]
  simp only [StateDB.GetNonce, StateDB.GetBalance, StateDB.GetState] at hNonce ⊢
  by_cases h1 : s.balance src.Address < exportPlusIncentive src.Amount * cfg.x2cRate
  · simp [h1, Nat.not_le.mpr h1]
  · by_cases h2 : s.storage src.Address BalanceSlot + amountToBurn src.Amount * cfg.x2cRate >
        s.balance src.Address - exportPlusIncentive src.Amount * cfg.x2cRate
    · simp [h1, h2, StateDB.SubBalance, Nat.not_le.mpr h2, Nat.not_lt.mp h1, gt_iff_lt.mp h2]
    · by_cases h3 : s.storage src.Address TimestampSlot = 0
      · cases hb : ucx.blockTime with
        | none => simp [h1, h2, h3, hb, StateDB.SubBalance, StateDB.AddBalance, StateDB.SetState]
        | some t =>
          simp [h1, h2, h3, hb, hNonce, StateDB.SubBalance, StateDB.AddBalance,
            StateDB.SetState, Nat.not_lt.mp h1, Nat.not_lt.mp h2]
      · simp [h1, h2, h3, hNonce, StateDB.SubBalance, StateDB.AddBalance,
            StateDB.SetState, Nat.not_lt.mp h1, Nat.not_lt.mp h2]


/-- C1, witness: a mismatching nonce (5 on chain, 7 declared) on a funded
source, and on a source that holds nothing, where the funds check fails. -/
theorem EVMStateTransfer_nonce_mismatch_witness :
    ((exampleLedger (10 ^ 30) 5 0 0).GetNonce exampleConfig.BlackholeAddr ≠ 7 ∧
      (EVMStateTransfer exampleConfig (exampleTx 1000000 7 (some 100))
        (exampleLedger (10 ^ 30) 5 0 0)).ret ≠ .nil ∧
      (EVMStateTransfer exampleConfig (exampleTx 1000000 7 (some 100))
        (exampleLedger (10 ^ 30) 5 0 0)).state.nonce = (exampleLedger (10 ^ 30) 5 0 0).nonce) ∧
    ((exampleLedger 0 5 0 0).GetNonce exampleConfig.BlackholeAddr ≠ 7 ∧
      (exampleLedger 0 5 0 0).GetBalance exampleConfig.BlackholeAddr <
        exportPlusIncentive 1000000 * exampleConfig.x2cRate ∧
      (EVMStateTransfer exampleConfig (exampleTx 1000000 7 (some 100))
        (exampleLedger 0 5 0 0)).ret = .error .errInsufficientFunds ∧
      (EVMStateTransfer exampleConfig (exampleTx 1000000 7 (some 100))
        (exampleLedger 0 5 0 0)).state.balance = (exampleLedger 0 5 0 0).balance) :=
  ⟨⟨by decide,
      (EVMStateTransfer_nonce_mismatch exampleConfig (exampleTx 1000000 7 (some 100))
        (exampleLedger (10 ^ 30) 5 0 0) ⟨exampleConfig.BlackholeAddr, 1000000, 7, 7⟩
        ⟨7, .TransferOutput 1000000 ⟨0, 1, [FeeRewardAddressID]⟩⟩ rfl rfl (by decide)).1,
      (EVMStateTransfer_nonce_mismatch exampleConfig (exampleTx 1000000 7 (some 100))
        (exampleLedger (10 ^ 30) 5 0 0) ⟨exampleConfig.BlackholeAddr, 1000000, 7, 7⟩
        ⟨7, .TransferOutput 1000000 ⟨0, 1, [FeeRewardAddressID]⟩⟩ rfl rfl (by decide)).2.1⟩,
    ⟨by decide, by decide,
      (EVMStateTransfer_nonce_mismatch exampleConfig (exampleTx 1000000 7 (some 100))
        (exampleLedger 0 5 0 0) ⟨exampleConfig.BlackholeAddr, 1000000, 7, 7⟩
        ⟨7, .TransferOutput 1000000 ⟨0, 1, [FeeRewardAddressID]⟩⟩ rfl rfl
        (by decide)).2.2.2.2.1.mpr (by decide),
      (EVMStateTransfer_nonce_mismatch exampleConfig (exampleTx 1000000 7 (some 100))
        (exampleLedger 0 5 0 0) ⟨exampleConfig.BlackholeAddr, 1000000, 7, 7⟩
        ⟨7, .TransferOutput 1000000 ⟨0, 1, [FeeRewardAddressID]⟩⟩ rfl rfl
        (by decide)).2.2.2.2.2.1 (by decide)⟩⟩

/-- C1, counterexample: the source holds 10^30 and has nonce 5, the transaction
declares nonce 7 and amount 1000000. The call returns `errInvalidNonce`, yet the
source balance has gone down by 6 * 10^20 and the incentive pool has gone up
from 0 to 3 * 10^20. On a source that holds nothing the same transaction fails
with `errInsufficientFunds`, not with `errInvalidNonce`. -/
theorem EVMStateTransfer_nonce_mismatch_mutates_balances :
    (EVMStateTransfer exampleConfig (exampleTx 1000000 7 (some 100))
      (exampleLedger (10 ^ 30) 5 0 0)).ret = .error .errInvalidNonce ∧
    (exampleLedger (10 ^ 30) 5 0 0).GetBalance exampleConfig.BlackholeAddr = 10 ^ 30 ∧
    (EVMStateTransfer exampleConfig (exampleTx 1000000 7 (some 100))
      (exampleLedger (10 ^ 30) 5 0 0)).state.GetBalance exampleConfig.BlackholeAddr
        = 10 ^ 30 - 6 * 10 ^ 20 ∧
    (exampleLedger (10 ^ 30) 5 0 0).GetBalance FeeRewardAddress = 0 ∧
    (EVMStateTransfer exampleConfig (exampleTx 1000000 7 (some 100))
      (exampleLedger (10 ^ 30) 5 0 0)).state.GetBalance FeeRewardAddress = 3 * 10 ^ 20 ∧
    (EVMStateTransfer exampleConfig (exampleTx 1000000 7 (some 100))
      (exampleLedger 0 5 0 0)).ret = .error .errInsufficientFunds := by
  decide

/-- C2 (amended): when `EVMStateTransfer` has succeeded and is applied again to
the ledger it left, the second application does not succeed; for a transaction
whose `blockTime` is set it fails with `errInsufficientFunds`, with the
payout-exceeds-balance error or with `errInvalidNonce` (the first application
raised the source nonce above the declared one). -/
theorem EVMStateTransfer_twice_fails (cfg : Config) (ucx : UnsignedCollectRewardsTx) (s : StateDB)
    (hFirst : (EVMStateTransferTwice cfg ucx s).1.ret = .nil) :
    (EVMStateTransferTwice cfg ucx s).2.ret ≠ .nil ∧
    (ucx.blockTime ≠ none →
      (EVMStateTransferTwice cfg ucx s).2.ret = .error .errInsufficientFunds ∨
      (EVMStateTransferTwice cfg ucx s).2.ret = .error (.errorf "payed out fees exceed balance") ∨
      (EVMStateTransferTwice cfg ucx s).2.ret = .error .errInvalidNonce) := by
  simp only [EVMStateTransferTwice] at hFirst ⊢
  obtain ⟨src, out, hI, hO, hn, hb⟩ := EVMStateTransfer_nil cfg ucx s hFirst
  generalize EVMStateTransfer cfg ucx s = first at hn hb
  have hne : first.state.nonce src.Address ≠ src.Nonce := by rw [hn]; exact succ_mod_ne _
  have key := EVMStateTransfer_mismatch_ret cfg { ucx with blockTime := first.blockTime }
    first.state src out hI hO hne
  constructor
  · rcases key with h | h | h | ⟨h, -⟩ <;> rw [h] <;> simp
  · intro hbt
    rcases key with h | h | h | ⟨-, h⟩
    · exact Or.inl h
    · exact Or.inr (Or.inl h)
    · exact Or.inr (Or.inr h)
    · exact absurd h (hb hbt)


/-- C2, witness: a first application that succeeds. -/
theorem EVMStateTransfer_twice_fails_witness :
    (EVMStateTransferTwice exampleConfig (exampleTx 1000000 5 (some 100))
      (exampleLedger (10 ^ 30) 5 0 0)).1.ret = .nil ∧
    (EVMStateTransferTwice exampleConfig (exampleTx 1000000 5 (some 100))
      (exampleLedger (10 ^ 30) 5 0 0)).2.ret ≠ .nil ∧
    (exampleTx 1000000 5 (some 100)).blockTime ≠ none ∧
    ((EVMStateTransferTwice exampleConfig (exampleTx 1000000 5 (some 100))
        (exampleLedger (10 ^ 30) 5 0 0)).2.ret = .error .errInsufficientFunds ∨
      (EVMStateTransferTwice exampleConfig (exampleTx 1000000 5 (some 100))
        (exampleLedger (10 ^ 30) 5 0 0)).2.ret =
          .error (.errorf "payed out fees exceed balance") ∨
      (EVMStateTransferTwice exampleConfig (exampleTx 1000000 5 (some 100))
        (exampleLedger (10 ^ 30) 5 0 0)).2.ret = .error .errInvalidNonce) :=
  ⟨by decide,
    (EVMStateTransfer_twice_fails exampleConfig (exampleTx 1000000 5 (some 100))
      (exampleLedger (10 ^ 30) 5 0 0) (by decide)).1,
    by decide,
    (EVMStateTransfer_twice_fails exampleConfig (exampleTx 1000000 5 (some 100))
      (exampleLedger (10 ^ 30) 5 0 0) (by decide)).2 (by decide)⟩

/-- C2, counterexample: the source holds 10^30 with nonce 5 and both markers
zero; the transaction declares amount 1000000 and nonce 5. The first application
succeeds; the second passes the funds check and the payout check and fails with
`errInvalidNonce`, which is neither of the two errors of the claim. The same
happens for amount 0 on an empty source. -/
theorem EVMStateTransfer_twice_invalid_nonce :
    (EVMStateTransferTwice exampleConfig (exampleTx 1000000 5 (some 100))
      (exampleLedger (10 ^ 30) 5 0 0)).1.ret = .nil ∧
    (EVMStateTransferTwice exampleConfig (exampleTx 1000000 5 (some 100))
      (exampleLedger (10 ^ 30) 5 0 0)).2.ret = .error .errInvalidNonce ∧
    (EVMStateTransferTwice exampleConfig (exampleTx 1000000 5 (some 100))
      (exampleLedger (10 ^ 30) 5 0 0)).2.ret ≠ .error .errInsufficientFunds ∧
    (EVMStateTransferTwice exampleConfig (exampleTx 1000000 5 (some 100))
      (exampleLedger (10 ^ 30) 5 0 0)).2.ret ≠ .error (.errorf "payed out fees exceed balance") ∧
    (EVMStateTransferTwice exampleConfig (exampleTx 0 5 (some 100))
      (exampleLedger 0 5 0 0)).1.ret = .nil ∧
    (EVMStateTransferTwice exampleConfig (exampleTx 0 5 (some 100))
      (exampleLedger 0 5 0 0)).2.ret = .error .errInvalidNonce := by
  decide

/-- C3: when `EVMStateTransfer` succeeds, the marker stored at `BalanceSlot` of
the source is at most the source's balance in the resulting ledger; and when,
after the debit, the marker plus the burned remainder exceeds the remaining
balance, the transfer fails with the payout-exceeds-balance error and has
written no storage slot. -/
theorem EVMStateTransfer_marker_le_balance (cfg : Config) (ucx : UnsignedCollectRewardsTx)
    (s : StateDB) (src : EVMInput) (hIns : ucx.Ins = [src]) :
    ((EVMStateTransfer cfg ucx s).ret = .nil →
      (EVMStateTransfer cfg ucx s).state.GetState src.Address BalanceSlot ≤
        (EVMStateTransfer cfg ucx s).state.GetBalance src.Address) ∧
    (ucx.ExportedOutputs.length = 1 →
      exportPlusIncentive src.Amount * cfg.x2cRate ≤ s.GetBalance src.Address →
      s.GetState src.Address BalanceSlot + amountToBurn src.Amount * cfg.x2cRate >
        s.GetBalance src.Address - exportPlusIncentive src.Amount * cfg.x2cRate →
      (EVMStateTransfer cfg ucx s).ret = .error (.errorf "payed out fees exceed balance") ∧
      (EVMStateTransfer cfg ucx s).state.storage = s.storage) := by
  have hslot : BalanceSlot ≠ TimestampSlot := BalanceSlot_ne_TimestampSlot
  constructor
  · intro h
    obtain ⟨src', out, hI, hO, -, -⟩ := EVMStateTransfer_nil cfg ucx s h
    have hs : src' = src := by rw [hI] at hIns; simpa using hIns
    subst hs
    rw [EVMStateTransfer_one cfg ucx s src' out hI hO] at h ⊢
    by_cases h1 : s.balance src'.Address < exportPlusIncentive src'.Amount * cfg.x2cRate
    · simp [h1] at h
    · by_cases h2 : s.storage src'.Address BalanceSlot + amountToBurn src'.Amount * cfg.x2cRate >
          s.balance src'.Address - exportPlusIncentive src'.Amount * cfg.x2cRate
      · simp [h1, h2] at h
      · have hle : (s.storage src'.Address BalanceSlot + amountToBurn src'.Amount * cfg.x2cRate)
            % 2 ^ 256 ≤ s.balance src'.Address - exportPlusIncentive src'.Amount * cfg.x2cRate :=
          le_trans (Nat.mod_le _ _) (Nat.not_lt.mp h2)
        have hcast : BigToHash ((s.storage src'.Address BalanceSlot +
            amountToBurn src'.Amount * cfg.x2cRate : Nat) : Int) =
            (s.storage src'.Address BalanceSlot + amountToBurn src'.Amount * cfg.x2cRate)
              % 2 ^ 256 := BigToHash_natCast _
        by_cases h3 : s.storage src'.Address TimestampSlot = 0
        · cases hb : ucx.blockTime with
          | none => simp [h1, h2, h3, hb] at h
          | some t =>
            by_cases h4 : s.nonce src'.Address = src'.Nonce
            · simp only [h1, h2, h3, h4, if_true, if_false, not_true, ne_eq]
              simp only [StateDB.SetNonce, StateDB.SetState, StateDB.AddBalance,
                StateDB.SubBalance, StateDB.GetState, StateDB.GetBalance,
                Function.update_same, Function.update_noteq hslot]
              rw [hcast]
              by_cases hp : src'.Address = FeeRewardAddressID
              · rw [← hp]; simp only [Function.update_same]; omega
              · rw [Function.update_noteq hp]; simp only [Function.update_same]; omega
            · simp [h1, h2, h3, hb, h4] at h
        · by_cases h4 : s.nonce src'.Address = src'.Nonce
          · simp only [h1, h2, h3, h4, if_true, if_false, not_true, ne_eq]
            simp only [StateDB.SetNonce, StateDB.SetState, StateDB.AddBalance,
              StateDB.SubBalance, StateDB.GetState, StateDB.GetBalance,
              Function.update_same, Function.update_noteq hslot]
            rw [hcast]
            by_cases hp : src'.Address = FeeRewardAddressID
            · rw [← hp]; simp only [Function.update_same]; omega
            · rw [Function.update_noteq hp]; simp only [Function.update_same]; omega
          · simp [h1, h2, h3, h4] at h
  · intro hlen hfunds hpay
    obtain ⟨out, hO⟩ := List.length_eq_one.mp hlen
    rw [EVMStateTransfer_one cfg ucx s src out hIns hO]
    simp only [StateDB.GetBalance, StateDB.GetState] at hfunds hpay
    simp [Nat.not_lt.mpr hfunds, hpay, StateDB.SubBalance]


/-- C3, witness: a transfer that succeeds on a source holding 10^30, and one
that fails the payout check on a source holding 10^21. -/
theorem EVMStateTransfer_marker_le_balance_witness :
    ((EVMStateTransfer exampleConfig (exampleTx 1000000 5 (some 100))
        (exampleLedger (10 ^ 30) 5 0 0)).ret = .nil ∧
      (EVMStateTransfer exampleConfig (exampleTx 1000000 5 (some 100))
        (exampleLedger (10 ^ 30) 5 0 0)).state.GetState exampleConfig.BlackholeAddr BalanceSlot ≤
      (EVMStateTransfer exampleConfig (exampleTx 1000000 5 (some 100))
        (exampleLedger (10 ^ 30) 5 0 0)).state.GetBalance exampleConfig.BlackholeAddr) ∧
    ((exampleTx 1000000 5 (some 100)).ExportedOutputs.length = 1 ∧
      exportPlusIncentive 1000000 * exampleConfig.x2cRate ≤
        (exampleLedger (10 ^ 21) 5 0 0).GetBalance exampleConfig.BlackholeAddr ∧
      (exampleLedger (10 ^ 21) 5 0 0).GetState exampleConfig.BlackholeAddr BalanceSlot +
          amountToBurn 1000000 * exampleConfig.x2cRate >
        (exampleLedger (10 ^ 21) 5 0 0).GetBalance exampleConfig.BlackholeAddr -
          exportPlusIncentive 1000000 * exampleConfig.x2cRate ∧
      (EVMStateTransfer exampleConfig (exampleTx 1000000 5 (some 100))
        (exampleLedger (10 ^ 21) 5 0 0)).ret = .error (.errorf "payed out fees exceed balance") ∧
      (EVMStateTransfer exampleConfig (exampleTx 1000000 5 (some 100))
        (exampleLedger (10 ^ 21) 5 0 0)).state.storage = (exampleLedger (10 ^ 21) 5 0 0).storage) :=
  ⟨⟨by decide,
      (EVMStateTransfer_marker_le_balance exampleConfig (exampleTx 1000000 5 (some 100))
        (exampleLedger (10 ^ 30) 5 0 0) ⟨exampleConfig.BlackholeAddr, 1000000, 7, 5⟩ rfl).1
        (by decide)⟩,
    ⟨by decide, by decide, by decide,
      (EVMStateTransfer_marker_le_balance exampleConfig (exampleTx 1000000 5 (some 100))
        (exampleLedger (10 ^ 21) 5 0 0) ⟨exampleConfig.BlackholeAddr, 1000000, 7, 5⟩ rfl).2
        (by decide) (by decide) (by decide)⟩⟩


/-! ## The reward trigger -/

/-- With no payout marker, `balanceAvax` is the source balance in native-asset
subunits, cut to 64 bits. -/
theorem balanceAvax_of_no_payout (cfg : Config) (state : StateDB)
    (hPayout : state.GetState cfg.BlackholeAddr BalanceSlot = 0) :
    balanceAvax cfg state = (state.GetBalance cfg.BlackholeAddr / cfg.x2cRate) % 2 ^ 64 := by
  unfold balanceAvax
  rw [hPayout]
  simp only [Nat.cast_zero, sub_zero]
  have h : Int.ediv (state.GetBalance cfg.BlackholeAddr : Int) (cfg.x2cRate : Int)
      = ((state.GetBalance cfg.BlackholeAddr / cfg.x2cRate : Nat) : Int) := rfl
  rw [h, Int.natAbs_ofNat]

/-- C4, the code at the failing input: the source holds 500000 subunits
(500000 * x2cRate in the ledger) and the payout marker is zero, so the
distributable amount is 500000 and `floor(500000 * 300000 / 1000000)` is
150000, below the minimum 200000. The code divides by `RateDenominator = 1`:
`calculateRate` gives 150000000000, the threshold test passes, and a
transaction for the amount 500000 is handed to `issueTx`. -/
theorem TriggerRewardsTx_issues_at_500000 :
    balanceAvax exampleConfig (exampleLedger (500000 * 1000000000) 5 0 0) = 500000 ∧
    500000 * 300000 / 1000000 = 150000 ∧
    calculateRate 500000 ExportRewardRate = 150000000000 ∧
    TriggerRewardsTx (exampleVM (exampleLedger (500000 * 1000000000) 5 0 0)) =
      [.issueTx ⟨.collectRewards (exampleTx 500000 5 none)⟩ true] := by
  decide

/-- C5 (amended): with a distributable amount of 1000000, a zero payout marker
and a construction that succeeds, `TriggerRewardsTx` makes exactly one call to
`issueTx`, as locally originated, with a CollectRewards transaction that has
one input, from the fixed source address with amount 1000000, and one output,
to the fixed destination owner with threshold 1, whose declared amount is
1000000, the full input amount. -/
theorem TriggerRewardsTx_issues_full_amount (vm : VM) (state : StateDB)
    (hState : vm.State = .inr state)
    (hPayout : state.GetState vm.cfg.BlackholeAddr BalanceSlot = 0)
    (hAmount : state.GetBalance vm.cfg.BlackholeAddr / vm.cfg.x2cRate = 1000000)
    (hNew : (NewCollectRewardsTx vm 1000000).2 = none) :
    ∃ id nonce, TriggerRewardsTx vm =
      [.issueTx ⟨.collectRewards
        { id := id
          NetworkID := vm.cfg.NetworkID
          BlockchainID := vm.cfg.ChainID
          DestinationChain := vm.cfg.PlatformChainID
          Ins := [⟨vm.cfg.BlackholeAddr, 1000000, vm.cfg.AVAXAssetID, nonce⟩]
          ExportedOutputs :=
            [⟨vm.cfg.AVAXAssetID, .TransferOutput 1000000 ⟨0, 1, [FeeRewardAddressID]⟩⟩]
          blockTime := none }⟩ true] := by
  have hD : balanceAvax vm.cfg state = 1000000 := by
    rw [balanceAvax_of_no_payout vm.cfg state hPayout, hAmount]; rfl
  have hRate : ¬ calculateRate 1000000 ExportRewardRate < FeeRewardMinAmountToExport := by
    decide
  unfold TriggerRewardsTx
  rw [hState]
  simp only [hD, hRate, if_false]
  unfold NewCollectRewardsTx at hNew ⊢
  cases hN : vm.GetCurrentNonce vm.cfg.BlackholeAddr with
  | inl e => rw [hN] at hNew; simp at hNew
  | inr nonce =>
    rw [hN] at hNew
    simp only at hNew ⊢
    split at hNew
    · simp at hNew
    · rename_i id hS
      simp only at hNew
      simp only [hNew]
      exact ⟨id, nonce, rfl⟩

/-- C5, witness: the source holds 1000000 subunits and nothing was paid out. -/
theorem TriggerRewardsTx_issues_full_amount_witness :
    (exampleVM (exampleLedger (1000000 * 1000000000) 5 0 0)).State =
      .inr (exampleLedger (1000000 * 1000000000) 5 0 0) ∧
    (exampleLedger (1000000 * 1000000000) 5 0 0).GetState exampleConfig.BlackholeAddr
      BalanceSlot = 0 ∧
    (exampleLedger (1000000 * 1000000000) 5 0 0).GetBalance exampleConfig.BlackholeAddr /
      exampleConfig.x2cRate = 1000000 ∧
    (NewCollectRewardsTx (exampleVM (exampleLedger (1000000 * 1000000000) 5 0 0)) 1000000).2 =
      none ∧
    ∃ id nonce, TriggerRewardsTx (exampleVM (exampleLedger (1000000 * 1000000000) 5 0 0)) =
      [.issueTx ⟨.collectRewards
        { id := id
          NetworkID := exampleConfig.NetworkID
          BlockchainID := exampleConfig.ChainID
          DestinationChain := exampleConfig.PlatformChainID
          Ins := [⟨exampleConfig.BlackholeAddr, 1000000, exampleConfig.AVAXAssetID, nonce⟩]
          ExportedOutputs :=
            [⟨exampleConfig.AVAXAssetID, .TransferOutput 1000000 ⟨0, 1, [FeeRewardAddressID]⟩⟩]
          blockTime := none }⟩ true] :=
  ⟨rfl, by decide, by decide, by decide,
    TriggerRewardsTx_issues_full_amount (exampleVM (exampleLedger (1000000 * 1000000000) 5 0 0))
      (exampleLedger (1000000 * 1000000000) 5 0 0) rfl (by decide) (by decide) (by decide)⟩

/-- C5, counterexample: the source holds 1000000 subunits, the payout marker is
zero and construction succeeds. One transaction is handed to `issueTx` as local;
its single output declares the amount 1000000, not 300000. -/
theorem TriggerRewardsTx_output_amount_not_300000 :
    balanceAvax exampleConfig (exampleLedger (1000000 * 1000000000) 5 0 0) = 1000000 ∧
    TriggerRewardsTx (exampleVM (exampleLedger (1000000 * 1000000000) 5 0 0)) =
      [.issueTx ⟨.collectRewards (exampleTx 1000000 5 none)⟩ true] ∧
    (exampleTx 1000000 5 none).ExportedOutputs =
      [⟨exampleConfig.AVAXAssetID, .TransferOutput 1000000 ⟨0, 1, [FeeRewardAddressID]⟩⟩] ∧
    (exampleTx 1000000 5 none).ExportedOutputs ≠
      [⟨exampleConfig.AVAXAssetID, .TransferOutput 300000 ⟨0, 1, [FeeRewardAddressID]⟩⟩] := by
  decide


/-! ## The deferred-check registry -/

theorem beq_false_of_ne {a b : ID} (h : a ≠ b) : (a == b) = false := by
  simpa using h

theorem lookup_filter_self (id : ID) (l : List (ID × Block)) :
    (l.filter (fun e => e.1 ≠ id)).lookup id = none := by
  induction l with
  | nil => rfl
  | cons e t ih =>
    obtain ⟨k, v⟩ := e
    by_cases h : k = id
    · rw [List.filter_cons_of_neg (by simp [h])]
      exact ih
    · rw [List.filter_cons_of_pos (by simp [h]), List.lookup_cons,
        beq_false_of_ne (fun h3 => h h3.symm)]
      exact ih

theorem lookup_filter_ne (id id2 : ID) (hne : id2 ≠ id) (l : List (ID × Block)) :
    (l.filter (fun e => e.1 ≠ id)).lookup id2 = l.lookup id2 := by
  induction l with
  | nil => rfl
  | cons e t ih =>
    obtain ⟨k, v⟩ := e
    by_cases h : k = id
    · rw [List.filter_cons_of_neg (by simp [h]), List.lookup_cons,
        beq_false_of_ne (fun h3 => hne (h3.trans h))]
      exact ih
    · rw [List.filter_cons_of_pos (by simp [h]), List.lookup_cons, List.lookup_cons, ih]

theorem filter_of_lookup_none (id : ID) (l : List (ID × Block)) (h : l.lookup id = none) :
    l.filter (fun e => e.1 ≠ id) = l := by
  induction l with
  | nil => rfl
  | cons e t ih =>
    obtain ⟨k, v⟩ := e
    by_cases hk : id = k
    · rw [List.lookup_cons, hk, beq_self_eq_true] at h
      exact absurd h (by simp)
    · rw [List.lookup_cons, beq_false_of_ne hk] at h
      rw [List.filter_cons_of_pos (by simpa using fun h3 => hk h3.symm), ih h]

theorem lookup_none_of_not_mem (id : ID) (l : List (ID × Block))
    (h : id ∉ l.map Prod.fst) : l.lookup id = none := by
  induction l with
  | nil => rfl
  | cons e t ih =>
    obtain ⟨k, v⟩ := e
    simp only [List.map_cons, List.mem_cons, not_or] at h
    rw [List.lookup_cons, beq_false_of_ne h.1]
    exact ih h.2

theorem length_filter_of_lookup_some (id : ID) (l : List (ID × Block)) (b : Block)
    (hnd : (l.map Prod.fst).Nodup) (h : l.lookup id = some b) :
    (l.filter (fun e => e.1 ≠ id)).length + 1 = l.length := by
  induction l with
  | nil => exact absurd h (by simp)
  | cons e t ih =>
    obtain ⟨k, v⟩ := e
    rw [List.map_cons, List.nodup_cons] at hnd
    by_cases hk : id = k
    · subst hk
      have ht : t.lookup id = none := lookup_none_of_not_mem id t hnd.1
      rw [List.filter_cons_of_neg (by simp), filter_of_lookup_none id t ht, List.length_cons]
    · rw [List.lookup_cons, beq_false_of_ne hk] at h
      rw [List.filter_cons_of_pos (by simpa using fun h3 => hk h3.symm), List.length_cons,
        List.length_cons, ih hnd.2 h]

namespace DeferedChecks

theorem get_delete_self (d : DeferedChecks) (id : ID) : (d.delete id).get id = none :=
  lookup_filter_self id d.deferedChecks

theorem get_delete_ne (d : DeferedChecks) (id id2 : ID) (hne : id2 ≠ id) :
    (d.delete id).get id2 = d.get id2 :=
  lookup_filter_ne id id2 hne d.deferedChecks

theorem delete_of_get_none (d : DeferedChecks) (id : ID) (h : d.get id = none) :
    (d.delete id).deferedChecks = d.deferedChecks :=
  filter_of_lookup_none id d.deferedChecks h

theorem Count_delete_le (d : DeferedChecks) (id : ID) : (d.delete id).Count ≤ d.Count :=
  List.length_filter_le _ _

theorem Count_delete_of_get_none (d : DeferedChecks) (id : ID) (h : d.get id = none) :
    (d.delete id).Count = d.Count := by
  unfold Count
  rw [delete_of_get_none d id h]

theorem Count_delete_of_get_some (d : DeferedChecks) (id : ID) (b : Block)
    (h : d.get id = some b) : (d.delete id).Count + 1 = d.Count :=
  length_filter_of_lookup_some id d.deferedChecks b d.nodup h

theorem get_Push_self (d : DeferedChecks) (id : ID) (b : Block) :
    (d.Push id b).get id = some b := by
  show ((id, b) :: (d.delete id).deferedChecks).lookup id = some b
  rw [List.lookup_cons, beq_self_eq_true]

theorem get_Push_ne (d : DeferedChecks) (id id2 : ID) (b : Block) (hne : id2 ≠ id) :
    (d.Push id b).get id2 = d.get id2 := by
  show ((id, b) :: (d.delete id).deferedChecks).lookup id2 = d.deferedChecks.lookup id2
  rw [List.lookup_cons, beq_false_of_ne hne]
  exact lookup_filter_ne id id2 hne d.deferedChecks

theorem Count_Push (d : DeferedChecks) (id : ID) (b : Block) :
    (d.Push id b).Count = d.Count + (if d.get id = none then 1 else 0) := by
  have h : (d.Push id b).Count = (d.delete id).Count + 1 := rfl
  rw [h]
  cases hg : d.get id with
  | none => simp [Count_delete_of_get_none d id hg]
  | some c => simp [Count_delete_of_get_some d id c hg]

end DeferedChecks


/-! ## Presence of cross-chain records -/

theorem SharedMemory_Get_missing (sm : SharedMemory) (chainID : ID) (keys : List ID)
    (h : ∃ k ∈ keys, sm.records chainID k = none) :
    sm.Get chainID keys = .inl .MissingKeyError := by
  obtain ⟨k, hk, hnone⟩ := h
  unfold SharedMemory.Get
  rw [if_neg]
  intro hall
  have := List.all_eq_true.mp hall k hk
  rw [hnone] at this
  exact absurd this (by simp)

/-- The loop stops at the first transaction whose `AtomicOps` fails or whose
removals are not all in shared memory. -/
theorem verifyUTXOsPresentLoop_missing (vm : VM) (pre post : List Tx) (tx : Tx)
    (chainID : ID) (reqs : Requests) (e : GoError)
    (hOps : tx.UnsignedAtomicTx.AtomicOps vm.codec = .inr (chainID, reqs))
    (hGet : vm.SharedMemory.Get chainID reqs.RemoveRequests = .inl e) :
    ∃ err, (verifyUTXOsPresentLoop vm (pre ++ tx :: post)).1 = some err ∧
      (err.Is .errMissingUTXOs = true ∨
        ∃ t ∈ pre, t.UnsignedAtomicTx.AtomicOps vm.codec = .inl err) := by
  induction pre with
  | nil =>
    refine ⟨.wrapShow .errMissingUTXOs e, ?_, Or.inl ?_⟩
    · simp only [List.nil_append, verifyUTXOsPresentLoop, hOps, hGet]
    · simp [GoError.Is]
  | cons t pre ih =>
    simp only [List.cons_append, verifyUTXOsPresentLoop]
    cases hT : t.UnsignedAtomicTx.AtomicOps vm.codec with
    | inl err => exact ⟨err, rfl, Or.inr ⟨t, List.mem_cons_self _ _, hT⟩⟩
    | inr r =>
      obtain ⟨c, rq⟩ := r
      simp only []
      cases hG : vm.SharedMemory.Get c rq.RemoveRequests with
      | inl e2 =>
        exact ⟨.wrapShow .errMissingUTXOs e2, rfl, Or.inl (by simp [GoError.Is])⟩
      | inr vals =>
        obtain ⟨err, h1, h2⟩ := ih
        refine ⟨err, h1, ?_⟩
        rcases h2 with h2 | ⟨t2, ht2, h2⟩
        · exact Or.inl h2
        · exact Or.inr ⟨t2, List.mem_cons_of_mem _ ht2, h2⟩

/-- C6 (amended): on a bootstrapped engine, for a non-bonus block that contains
an atomic transaction whose required removals name a record absent from shared
memory, `verifyUTXOsPresent` fails. The error wraps `errMissingUTXOs`, or it is
the error that `AtomicOps` returned for a transaction placed earlier in the
block; it wraps `errMissingUTXOs` whenever `AtomicOps` succeeds for every
transaction placed earlier. -/
theorem verifyUTXOsPresent_missing (vm : VM) (b : Block) (ethBlock : EthBlock)
    (pre post : List Tx) (tx : Tx) (chainID : ID) (reqs : Requests)
    (hBody : b.ethBlock = some ethBlock)
    (hBonus : vm.IsBonus ethBlock.NumberU64 b.id = false)
    (hBoot : vm.bootstrapped = true)
    (hTxs : b.atomicTxs = pre ++ tx :: post)
    (hOps : tx.UnsignedAtomicTx.AtomicOps vm.codec = .inr (chainID, reqs))
    (hMissing : ∃ k ∈ reqs.RemoveRequests, vm.SharedMemory.records chainID k = none) :
    ∃ err, (verifyUTXOsPresent vm b).1 = .error err ∧
      (err.Is .errMissingUTXOs = true ∨
        ∃ t ∈ pre, t.UnsignedAtomicTx.AtomicOps vm.codec = .inl err) ∧
      ((∀ t ∈ pre, ∃ r, t.UnsignedAtomicTx.AtomicOps vm.codec = .inr r) →
        err.Is .errMissingUTXOs = true) := by
  obtain ⟨err, h1, h2⟩ := verifyUTXOsPresentLoop_missing vm pre post tx chainID reqs _ hOps
    (SharedMemory_Get_missing vm.SharedMemory chainID reqs.RemoveRequests hMissing)
  refine ⟨err, ?_, h2, ?_⟩
  · unfold verifyUTXOsPresent
    rw [hBody]
    simp only [hBonus, hBoot, hTxs, Bool.not_true, Bool.false_eq_true, if_false]
    generalize verifyUTXOsPresentLoop vm (pre ++ tx :: post) = out at h1
    obtain ⟨o, ev⟩ := out
    simp only at h1
    rw [h1]
  · intro hAll
    rcases h2 with h2 | ⟨t, ht, h2⟩
    · exact h2
    · obtain ⟨r, hr⟩ := hAll t ht
      rw [hr] at h2
      exact absurd h2 (by simp)

/-- C6, witness: an Export transaction, then an Import transaction whose record
is not in shared memory. -/
theorem verifyUTXOsPresent_missing_witness :
    (exampleVM (exampleLedger 0 0 0 0)).IsBonus
      (EthBlock.NumberU64 ⟨1, ⟨0, 10, 2000⟩⟩) 1 = false ∧
    (exampleVM (exampleLedger 0 0 0 0)).bootstrapped = true ∧
    (∃ k ∈ [500], (exampleVM (exampleLedger 0 0 0 0)).SharedMemory.records 0 k = none) ∧
    ∃ err, (verifyUTXOsPresent (exampleVM (exampleLedger 0 0 0 0))
        (exampleBlock 1 0 10 2000 [exampleExportTx, exampleImportTx])).1 = .error err ∧
      (err.Is .errMissingUTXOs = true ∨
        ∃ t ∈ [exampleExportTx],
          t.UnsignedAtomicTx.AtomicOps (exampleVM (exampleLedger 0 0 0 0)).codec = .inl err) ∧
      ((∀ t ∈ [exampleExportTx],
          ∃ r, t.UnsignedAtomicTx.AtomicOps (exampleVM (exampleLedger 0 0 0 0)).codec = .inr r) →
        err.Is .errMissingUTXOs = true) :=
  ⟨rfl, rfl, ⟨500, by simp, rfl⟩,
    verifyUTXOsPresent_missing (exampleVM (exampleLedger 0 0 0 0))
      (exampleBlock 1 0 10 2000 [exampleExportTx, exampleImportTx]) ⟨1, ⟨0, 10, 2000⟩⟩
      [exampleExportTx] [] exampleImportTx 0 ⟨[500], []⟩ rfl rfl rfl rfl rfl
      ⟨500, by simp, rfl⟩⟩

/-- C6, counterexample: a bootstrapped engine, a non-bonus block holding a
CollectRewards transaction without output followed by an Import transaction
whose record is not in shared memory. `verifyUTXOsPresent` returns the
`errWrongExportCount` of the first transaction, which does not wrap
`errMissingUTXOs`; with the two transactions in the other order it returns an
error that does. -/
theorem verifyUTXOsPresent_missing_not_wrapped :
    (exampleVM (exampleLedger 0 0 0 0)).SharedMemory.records 0 500 = none ∧
    exampleImportTx.UnsignedAtomicTx.AtomicOps (exampleVM (exampleLedger 0 0 0 0)).codec =
      .inr (0, ⟨[500], []⟩) ∧
    (verifyUTXOsPresent (exampleVM (exampleLedger 0 0 0 0))
      (exampleBlock 1 0 10 2000 [exampleNoOutputTx, exampleImportTx])).1 =
        .error .errWrongExportCount ∧
    GoError.errWrongExportCount.Is .errMissingUTXOs = false ∧
    (verifyUTXOsPresent (exampleVM (exampleLedger 0 0 0 0))
      (exampleBlock 1 0 10 2000 [exampleImportTx, exampleNoOutputTx])).1 =
        .error (.wrapShow .errMissingUTXOs .MissingKeyError) := by
  decide

/-- C7: when the atomic backend reports the block as a bonus block for its
height, or the engine is not bootstrapped, `verifyUTXOsPresent` returns success
and makes no call at all: it computes no transaction's `AtomicOps` and does not
read shared memory, whatever the transactions and the shared memory are. -/
theorem verifyUTXOsPresent_skipped (vm : VM) (b : Block) (ethBlock : EthBlock)
    (hBody : b.ethBlock = some ethBlock)
    (hSkip : vm.IsBonus ethBlock.NumberU64 b.id = true ∨ vm.bootstrapped = false) :
    verifyUTXOsPresent vm b = (.nil, []) := by
  unfold verifyUTXOsPresent
  rw [hBody]
  rcases hSkip with h | h
  · simp [h]
  · simp [h]

/-- C7, witness: an engine that is not bootstrapped, and a block with an Import
transaction whose record is missing and a transaction whose `AtomicOps` fails. -/
theorem verifyUTXOsPresent_skipped_witness :
    (({ exampleVM (exampleLedger 0 0 0 0) with bootstrapped := false } : VM).IsBonus
        (EthBlock.NumberU64 ⟨1, ⟨0, 10, 2000⟩⟩) 1 = true ∨
      ({ exampleVM (exampleLedger 0 0 0 0) with bootstrapped := false } : VM).bootstrapped
        = false) ∧
    verifyUTXOsPresent { exampleVM (exampleLedger 0 0 0 0) with bootstrapped := false }
      (exampleBlock 1 0 10 2000 [exampleImportTx, exampleNoOutputTx]) = (.nil, []) :=
  ⟨Or.inr rfl,
    verifyUTXOsPresent_skipped { exampleVM (exampleLedger 0 0 0 0) with bootstrapped := false }
      (exampleBlock 1 0 10 2000 [exampleImportTx, exampleNoOutputTx]) ⟨1, ⟨0, 10, 2000⟩⟩ rfl
      (Or.inr rfl)⟩


/-! ## Syntactic verification and deferral -/

/-- The deferral branch of `syntacticVerify`: what is returned and what the
registry becomes. -/
theorem syntacticVerify_defer_eq (vm : VM) (d : DeferedChecks) (b : Block) (ethBlock : EthBlock)
    (err pErr : GoError)
    (hBody : b.ethBlock = some ethBlock)
    (hHeight : 0 < ethBlock.Header.Number)
    (hOwn : vm.SyntacticVerify b (vm.CaminoRules ethBlock.Header.Number ethBlock.Header.Time)
      = some err)
    (hParent : vm.GetBlockInternal ethBlock.ParentHash = .inl pErr)
    (hPending : ∀ child, d.get b.id = some child →
      vm.SyntacticVerify child (vm.CaminoRules ethBlock.Header.Number ethBlock.Header.Time)
        = none) :
    (syntacticVerify vm d (some b)).1 = none ∧
    (syntacticVerify vm d (some b)).2.1.deferedChecks =
      ((d.delete b.id).Push ethBlock.ParentHash b).deferedChecks := by
  unfold syntacticVerify DeferedChecks.Verify
  simp only [hBody]
  cases hg : d.get b.id with
  | none =>
    simp only [hOwn, hHeight, hParent, gt_iff_lt, if_true, true_and]
    show (ethBlock.ParentHash, b) :: (d.delete ethBlock.ParentHash).deferedChecks =
      (ethBlock.ParentHash, b) :: ((d.delete b.id).delete ethBlock.ParentHash).deferedChecks
    have h1 : (d.delete b.id).deferedChecks = d.deferedChecks :=
      DeferedChecks.delete_of_get_none d b.id hg
    show (ethBlock.ParentHash, b) :: d.deferedChecks.filter _ =
      (ethBlock.ParentHash, b) :: (d.delete b.id).deferedChecks.filter _
    rw [h1]
  | some child =>
    simp only [hPending child hg, hOwn, hHeight, hParent, gt_iff_lt, if_true, true_and]

/-- C8 (amended): for a block with a body above height 0 whose validation under
its own rules fails and whose parent is not known locally, while no child
pending under its id fails, `syntacticVerify` returns success and the registry
afterwards maps the parent id to the block, replacing any child pending for
that parent. Every other id is mapped as in the registry from which the entry
under the block's own id has been consumed, and `Count` is the count of that
registry plus one if the parent id was absent from it, and unchanged otherwise.
In particular, when nothing was pending under the block's id, every other entry
is unchanged and `Count` grows by one if the parent id was absent and is
unchanged otherwise. -/
theorem syntacticVerify_defers (vm : VM) (d : DeferedChecks) (b : Block) (ethBlock : EthBlock)
    (err pErr : GoError)
    (hBody : b.ethBlock = some ethBlock)
    (hHeight : 0 < ethBlock.Header.Number)
    (hOwn : vm.SyntacticVerify b (vm.CaminoRules ethBlock.Header.Number ethBlock.Header.Time)
      = some err)
    (hParent : vm.GetBlockInternal ethBlock.ParentHash = .inl pErr)
    (hPending : ∀ child, d.get b.id = some child →
      vm.SyntacticVerify child (vm.CaminoRules ethBlock.Header.Number ethBlock.Header.Time)
        = none) :
    (syntacticVerify vm d (some b)).1 = none ∧
    (syntacticVerify vm d (some b)).2.1.get ethBlock.ParentHash = some b ∧
    (∀ id, id ≠ ethBlock.ParentHash →
      (syntacticVerify vm d (some b)).2.1.get id = (d.delete b.id).get id) ∧
    (syntacticVerify vm d (some b)).2.1.Count =
      (d.delete b.id).Count + (if (d.delete b.id).get ethBlock.ParentHash = none then 1 else 0) ∧
    (d.get b.id = none →
      (∀ id, id ≠ ethBlock.ParentHash →
        (syntacticVerify vm d (some b)).2.1.get id = d.get id) ∧
      (syntacticVerify vm d (some b)).2.1.Count =
        d.Count + (if d.get ethBlock.ParentHash = none then 1 else 0)) := by
  obtain ⟨h1, h2⟩ := syntacticVerify_defer_eq vm d b ethBlock err pErr hBody hHeight hOwn
    hParent hPending
  have hget : ∀ id, (syntacticVerify vm d (some b)).2.1.get id =
      ((d.delete b.id).Push ethBlock.ParentHash b).get id := by
    intro id
    unfold DeferedChecks.get
    rw [h2]
  have hcount : (syntacticVerify vm d (some b)).2.1.Count =
      ((d.delete b.id).Push ethBlock.ParentHash b).Count := by
    unfold DeferedChecks.Count
    rw [h2]
  refine ⟨h1, ?_, ?_, ?_, ?_⟩
  · rw [hget]
    exact DeferedChecks.get_Push_self _ _ _
  · intro id hne
    rw [hget]
    exact DeferedChecks.get_Push_ne _ _ _ _ hne
  · rw [hcount]
    exact DeferedChecks.Count_Push _ _ _
  · intro hnone
    have hl : (d.delete b.id).deferedChecks = d.deferedChecks :=
      DeferedChecks.delete_of_get_none d b.id hnone
    have hg : ∀ id, (d.delete b.id).get id = d.get id := by
      intro id
      unfold DeferedChecks.get
      rw [hl]
    constructor
    · intro id hne
      rw [hget, DeferedChecks.get_Push_ne _ _ _ _ hne, hg]
    · rw [hcount, DeferedChecks.Count_Push, hg, DeferedChecks.Count_delete_of_get_none d b.id hnone]

/-- C8, witness: block 2 at height 10 fails under its own rule-set 0, its
parent 1 is not known locally and the registry is empty. -/
theorem syntacticVerify_defers_witness :
    (exampleBlock 2 1 10 500 []).ethBlock = some ⟨2, ⟨1, 10, 500⟩⟩ ∧
    0 < (10 : Nat) ∧
    (exampleVM (exampleLedger 0 0 0 0)).SyntacticVerify (exampleBlock 2 1 10 500 [])
      ((exampleVM (exampleLedger 0 0 0 0)).CaminoRules 10 500) = some (.foreign 1) ∧
    (exampleVM (exampleLedger 0 0 0 0)).GetBlockInternal 1 = .inl (.foreign 404) ∧
    (syntacticVerify (exampleVM (exampleLedger 0 0 0 0)) DeferedChecks.NewDeferedChecks
      (some (exampleBlock 2 1 10 500 []))).1 = none ∧
    (syntacticVerify (exampleVM (exampleLedger 0 0 0 0)) DeferedChecks.NewDeferedChecks
      (some (exampleBlock 2 1 10 500 []))).2.1.get 1 = some (exampleBlock 2 1 10 500 []) :=
  ⟨rfl, by decide, by decide, rfl,
    (syntacticVerify_defers (exampleVM (exampleLedger 0 0 0 0)) DeferedChecks.NewDeferedChecks
      (exampleBlock 2 1 10 500 []) ⟨2, ⟨1, 10, 500⟩⟩ (.foreign 1) (.foreign 404) rfl
      (by decide) (by decide) rfl (by intro child h; exact absurd h (by simp [DeferedChecks.get, DeferedChecks.NewDeferedChecks]))).1,
    (syntacticVerify_defers (exampleVM (exampleLedger 0 0 0 0)) DeferedChecks.NewDeferedChecks
      (exampleBlock 2 1 10 500 []) ⟨2, ⟨1, 10, 500⟩⟩ (.foreign 1) (.foreign 404) rfl
      (by decide) (by decide) rfl (by intro child h; exact absurd h (by simp [DeferedChecks.get, DeferedChecks.NewDeferedChecks]))).2.1⟩

/-- C8, counterexample: block 2 (height 10, parent 1) fails under its own rules
and its parent is not known locally; the registry holds one entry, the child 77
pending under id 2, which passes under block 2's rules. `syntacticVerify`
returns success and maps the parent id 1 to block 2, but although the parent id
was absent `Count` is 1 before and 1 after: it has not grown by one. -/
theorem syntacticVerify_defers_count_not_grown :
    (exampleVM (exampleLedger 0 0 0 0)).SyntacticVerify (exampleBlock 2 1 10 500 []) 0
      = some (.foreign 1) ∧
    (exampleVM (exampleLedger 0 0 0 0)).GetBlockInternal 1 = .inl (.foreign 404) ∧
    (exampleVM (exampleLedger 0 0 0 0)).SyntacticVerify (exampleBlock 77 2 11 600 []) 0 = none ∧
    (DeferedChecks.NewDeferedChecks.Push 2 (exampleBlock 77 2 11 600 [])).get 1 = none ∧
    (DeferedChecks.NewDeferedChecks.Push 2 (exampleBlock 77 2 11 600 [])).Count = 1 ∧
    (syntacticVerify (exampleVM (exampleLedger 0 0 0 0))
      (DeferedChecks.NewDeferedChecks.Push 2 (exampleBlock 77 2 11 600 []))
      (some (exampleBlock 2 1 10 500 []))).1 = none ∧
    (syntacticVerify (exampleVM (exampleLedger 0 0 0 0))
      (DeferedChecks.NewDeferedChecks.Push 2 (exampleBlock 77 2 11 600 []))
      (some (exampleBlock 2 1 10 500 []))).2.1.get 1 = some (exampleBlock 2 1 10 500 []) ∧
    (syntacticVerify (exampleVM (exampleLedger 0 0 0 0))
      (DeferedChecks.NewDeferedChecks.Push 2 (exampleBlock 77 2 11 600 []))
      (some (exampleBlock 2 1 10 500 []))).2.1.Count = 1 := by
  decide

/-- C9: `DeferedChecks.Verify(b, r)` with an entry pending under the id of `b`
returns the validator's verdict on that pending child under `r`, from one
validator call; with none pending it returns success and calls nothing. In both
cases the registry afterwards has no entry under the id of `b`, every other
entry is unchanged, and `Count` has not increased (it is one lower when an
entry was pending). -/
theorem DeferedChecks_Verify_resolves (vm : VM) (d : DeferedChecks) (b : Block) (r : Rules) :
    (∀ child, d.get b.id = some child →
      (DeferedChecks.Verify vm d b r).1 = vm.SyntacticVerify child r ∧
      (DeferedChecks.Verify vm d b r).2.2 = [.SyntacticVerify child r] ∧
      (DeferedChecks.Verify vm d b r).2.1.Count + 1 = d.Count) ∧
    (d.get b.id = none →
      (DeferedChecks.Verify vm d b r).1 = none ∧ (DeferedChecks.Verify vm d b r).2.2 = []) ∧
    (DeferedChecks.Verify vm d b r).2.1.get b.id = none ∧
    (∀ id, id ≠ b.id → (DeferedChecks.Verify vm d b r).2.1.get id = d.get id) ∧
    (DeferedChecks.Verify vm d b r).2.1.Count ≤ d.Count := by
  unfold DeferedChecks.Verify
  cases hg : d.get b.id with
  | none =>
    refine ⟨fun child h => absurd h (by simp), fun _ => ⟨rfl, rfl⟩, hg, fun _ _ => rfl,
      le_refl _⟩
  | some child =>
    refine ⟨?_, fun h => absurd h (by simp), DeferedChecks.get_delete_self d b.id,
      fun id hne => DeferedChecks.get_delete_ne d b.id id hne,
      DeferedChecks.Count_delete_le d b.id⟩
    intro c hc
    cases hc
    exact ⟨rfl, rfl, DeferedChecks.Count_delete_of_get_some d b.id child hg⟩

/-- C9, witness: the child 77 is pending under id 2 and block 2 resolves it
under rule-set 0; and a resolution with nothing pending. -/
theorem DeferedChecks_Verify_resolves_witness :
    ((DeferedChecks.NewDeferedChecks.Push 2 (exampleBlock 77 2 11 600 [])).get 2 =
        some (exampleBlock 77 2 11 600 []) ∧
      (DeferedChecks.Verify (exampleVM (exampleLedger 0 0 0 0))
        (DeferedChecks.NewDeferedChecks.Push 2 (exampleBlock 77 2 11 600 []))
        (exampleBlock 2 1 10 500 []) 0).1 =
        (exampleVM (exampleLedger 0 0 0 0)).SyntacticVerify (exampleBlock 77 2 11 600 []) 0) ∧
    (DeferedChecks.NewDeferedChecks.get 2 = none ∧
      (DeferedChecks.Verify (exampleVM (exampleLedger 0 0 0 0)) DeferedChecks.NewDeferedChecks
        (exampleBlock 2 1 10 500 []) 0).1 = none) :=
  ⟨⟨by decide,
      ((DeferedChecks_Verify_resolves (exampleVM (exampleLedger 0 0 0 0))
        (DeferedChecks.NewDeferedChecks.Push 2 (exampleBlock 77 2 11 600 []))
        (exampleBlock 2 1 10 500 []) 0).1 (exampleBlock 77 2 11 600 []) (by decide)).1⟩,
    ⟨by decide,
      ((DeferedChecks_Verify_resolves (exampleVM (exampleLedger 0 0 0 0))
        DeferedChecks.NewDeferedChecks (exampleBlock 2 1 10 500 []) 0).2.1 (by decide)).1⟩⟩


/-! ## Block verification -/

theorem syntacticVerify_no_staged_call (vm : VM) (d : DeferedChecks) (b : Option Block) :
    ∀ e ∈ (syntacticVerify vm d b).2.2, e.isStagedViewCall = false := by
  have key : (syntacticVerify vm d b).2.2.all (fun e => !e.isStagedViewCall) = true := by
    cases b with
    | none => simp [syntacticVerify]
    | some b =>
      cases hBody : b.ethBlock with
      | none => simp [syntacticVerify, hBody]
      | some eb =>
        cases hg : d.get b.id with
        | none =>
          cases hown : vm.SyntacticVerify b (vm.CaminoRules eb.Header.Number eb.Header.Time) with
          | none =>
            simp [syntacticVerify, DeferedChecks.Verify, hBody, hg, hown, Event.isStagedViewCall]
          | some err =>
            by_cases hnum : 0 < eb.Header.Number
            · rcases hp : vm.GetBlockInternal eb.ParentHash with pe | (parent | _)
              · simp [syntacticVerify, DeferedChecks.Verify, hBody, hg, hown, hnum, hp,
                  Event.isStagedViewCall]
              · cases hpe : parent.ethBlock <;>
                  simp [syntacticVerify, DeferedChecks.Verify, hBody, hg, hown, hnum, hp, hpe,
                    Event.isStagedViewCall]
              · simp [syntacticVerify, DeferedChecks.Verify, hBody, hg, hown, hnum, hp,
                  Event.isStagedViewCall]
            · simp [syntacticVerify, DeferedChecks.Verify, hBody, hg, hown, hnum,
                Event.isStagedViewCall]
        | some child =>
          cases hch : vm.SyntacticVerify child (vm.CaminoRules eb.Header.Number eb.Header.Time) with
          | some cerr =>
            simp [syntacticVerify, DeferedChecks.Verify, hBody, hg, hch, Event.isStagedViewCall]
          | none =>
            cases hown : vm.SyntacticVerify b (vm.CaminoRules eb.Header.Number eb.Header.Time) with
            | none =>
              simp [syntacticVerify, DeferedChecks.Verify, hBody, hg, hch, hown,
                Event.isStagedViewCall]
            | some err =>
              by_cases hnum : 0 < eb.Header.Number
              · rcases hp : vm.GetBlockInternal eb.ParentHash with pe | (parent | _)
                · simp [syntacticVerify, DeferedChecks.Verify, hBody, hg, hch, hown, hnum, hp,
                    Event.isStagedViewCall]
                · cases hpe : parent.ethBlock <;>
                    simp [syntacticVerify, DeferedChecks.Verify, hBody, hg, hch, hown, hnum, hp,
                      hpe, Event.isStagedViewCall]
                · simp [syntacticVerify, DeferedChecks.Verify, hBody, hg, hch, hown, hnum, hp,
                    Event.isStagedViewCall]
              · simp [syntacticVerify, DeferedChecks.Verify, hBody, hg, hch, hown, hnum,
                  Event.isStagedViewCall]
  intro e he
  have := List.all_eq_true.mp key e he
  simpa using this

theorem verifyUTXOsPresentLoop_no_staged_call (vm : VM) (txs : List Tx) :
    ∀ e ∈ (verifyUTXOsPresentLoop vm txs).2, e.isStagedViewCall = false := by
  induction txs with
  | nil => intro e he; simp [verifyUTXOsPresentLoop] at he
  | cons t rest ih =>
    intro e he
    unfold verifyUTXOsPresentLoop at he
    cases hT : t.UnsignedAtomicTx.AtomicOps vm.codec with
    | inl err =>
      rw [hT] at he
      simp only [List.mem_singleton] at he
      subst he; rfl
    | inr r =>
      obtain ⟨c, rq⟩ := r
      rw [hT] at he
      simp only [] at he
      cases hG : vm.SharedMemory.Get c rq.RemoveRequests with
      | inl e2 =>
        rw [hG] at he
        simp only [List.mem_cons, List.mem_singleton, List.not_mem_nil, or_false] at he
        rcases he with he | he <;> subst he <;> rfl
      | inr vals =>
        rw [hG] at he
        simp only [List.mem_cons] at he
        rcases he with he | he | he
        · subst he; rfl
        · subst he; rfl
        · exact ih e he

theorem verifyUTXOsPresent_no_staged_call (vm : VM) (b : Block) :
    ∀ e ∈ (verifyUTXOsPresent vm b).2, e.isStagedViewCall = false := by
  intro e he
  unfold verifyUTXOsPresent at he
  cases hBody : b.ethBlock with
  | none => rw [hBody] at he; simp at he
  | some eb =>
    rw [hBody] at he
    simp only [] at he
    split_ifs at he
    · simp at he
    · simp at he
    · have := verifyUTXOsPresentLoop_no_staged_call vm b.atomicTxs e
      generalize verifyUTXOsPresentLoop vm b.atomicTxs = out at he this
      obtain ⟨o, ev⟩ := out
      cases o <;> exact this he


/-- C10 (amended): when `verify` fails at the local-ledger insertion, it returns
the insertion's error, and a staged view found for the block's hash has been
rolled back before it returns: the calls end with the insertion, the lookup of
the staged view and `Reject()` on it, whatever `Reject()` returns. When `verify`
fails at an earlier step it returns that step's error (the syntactic failure
wrapped, the presence failure as it is) at once: no staged view is looked up
and none is rolled back. -/
theorem verify_failure_rollback (vm : VM) (d : DeferedChecks) (b : Block) (writes : Bool) :
    (∀ err, (syntacticVerify vm d (some b)).1 = some err →
      (verify vm d b writes).1 = .error (.wrapf "syntactic block verification failed" err) ∧
      ∀ e ∈ (verify vm d b writes).2.2, e.isStagedViewCall = false) ∧
    (∀ err, (syntacticVerify vm d (some b)).1 = none →
      (verifyUTXOsPresent vm b).1 = .error err →
      (verify vm d b writes).1 = .error err ∧
      ∀ e ∈ (verify vm d b writes).2.2, e.isStagedViewCall = false) ∧
    (∀ ethBlock err, b.ethBlock = some ethBlock →
      (syntacticVerify vm d (some b)).1 = none →
      (verifyUTXOsPresent vm b).1 = .nil →
      (vm.InsertBlockManual ethBlock writes).1 = some err →
      (verify vm d b writes).1 = .error err ∧
      (∀ staged, (vm.InsertBlockManual ethBlock writes).2 ethBlock.Hash = .inr staged →
        (verify vm d b writes).2.2 =
          (syntacticVerify vm d (some b)).2.2 ++ (verifyUTXOsPresent vm b).2 ++
            [.InsertBlockManual ethBlock writes, .GetVerifiedAtomicState ethBlock.Hash,
              .AtomicStateReject ethBlock.Hash])) := by
  have hsyn := syntacticVerify_no_staged_call vm d (some b)
  have hutxo := verifyUTXOsPresent_no_staged_call vm b
  unfold verify
  generalize syntacticVerify vm d (some b) = syn at hsyn
  obtain ⟨so, sd, sev⟩ := syn
  generalize verifyUTXOsPresent vm b = utxo at hutxo
  obtain ⟨ur, uev⟩ := utxo
  simp only at hsyn hutxo ⊢
  refine ⟨?_, ?_, ?_⟩
  · intro err h
    subst h
    exact ⟨rfl, hsyn⟩
  · intro err h1 h2
    subst h1
    subst h2
    refine ⟨rfl, ?_⟩
    intro e he
    simp only [List.mem_append] at he
    rcases he with he | he
    · exact hsyn e he
    · exact hutxo e he
  · intro ethBlock err hBody h1 h2 hIns
    subst h1
    subst h2
    rcases hins : vm.InsertBlockManual ethBlock writes with ⟨io, staged⟩
    rw [hins] at hIns
    simp only at hIns
    subst hIns
    constructor
    · cases hs : staged ethBlock.Hash <;> simp [hBody, hins, hs, Ret.ofError]
    · intro st hst
      simp only at hst
      simp [hBody, hins, hst]

/-- C10, witness: a block that fails syntactic verification, a block that fails
the presence check, and a block whose insertion fails with error 7 while a
staged view exists whose `Reject()` fails with error 8. -/
theorem verify_failure_rollback_witness :
    ((syntacticVerify (exampleStagedVM (exampleLedger 0 0 0 0)) DeferedChecks.NewDeferedChecks
        (some (exampleBlock 3 1 0 500 []))).1 = some (.foreign 1) ∧
      (verify (exampleStagedVM (exampleLedger 0 0 0 0)) DeferedChecks.NewDeferedChecks
        (exampleBlock 3 1 0 500 []) true).1 =
        .error (.wrapf "syntactic block verification failed" (.foreign 1))) ∧
    ((syntacticVerify (exampleStagedVM (exampleLedger 0 0 0 0)) DeferedChecks.NewDeferedChecks
        (some (exampleBlock 3 1 10 2000 [exampleImportTx]))).1 = none ∧
      (verifyUTXOsPresent (exampleStagedVM (exampleLedger 0 0 0 0))
        (exampleBlock 3 1 10 2000 [exampleImportTx])).1 =
        .error (.wrapShow .errMissingUTXOs .MissingKeyError) ∧
      (verify (exampleStagedVM (exampleLedger 0 0 0 0)) DeferedChecks.NewDeferedChecks
        (exampleBlock 3 1 10 2000 [exampleImportTx]) true).1 =
        .error (.wrapShow .errMissingUTXOs .MissingKeyError)) ∧
    ((syntacticVerify (exampleFailingInsertVM (exampleLedger 0 0 0 0))
        DeferedChecks.NewDeferedChecks (some (exampleBlock 3 1 10 2000 []))).1 = none ∧
      (verifyUTXOsPresent (exampleFailingInsertVM (exampleLedger 0 0 0 0))
        (exampleBlock 3 1 10 2000 [])).1 = .nil ∧
      ((exampleFailingInsertVM (exampleLedger 0 0 0 0)).InsertBlockManual
        ⟨3, ⟨1, 10, 2000⟩⟩ true).1 = some (.foreign 7) ∧
      (verify (exampleFailingInsertVM (exampleLedger 0 0 0 0)) DeferedChecks.NewDeferedChecks
        (exampleBlock 3 1 10 2000 []) true).1 = .error (.foreign 7)) :=
  ⟨⟨by decide,
      ((verify_failure_rollback (exampleStagedVM (exampleLedger 0 0 0 0))
        DeferedChecks.NewDeferedChecks (exampleBlock 3 1 0 500 []) true).1
        (.foreign 1) (by decide)).1⟩,
    ⟨by decide, by decide,
      ((verify_failure_rollback (exampleStagedVM (exampleLedger 0 0 0 0))
        DeferedChecks.NewDeferedChecks (exampleBlock 3 1 10 2000 [exampleImportTx]) true).2.1
        (.wrapShow .errMissingUTXOs .MissingKeyError) (by decide) (by decide)).1⟩,
    ⟨by decide, by decide, by decide,
      ((verify_failure_rollback (exampleFailingInsertVM (exampleLedger 0 0 0 0))
        DeferedChecks.NewDeferedChecks (exampleBlock 3 1 10 2000 []) true).2.2
        ⟨3, ⟨1, 10, 2000⟩⟩ (.foreign 7) rfl (by decide) (by decide) (by decide)).1⟩⟩

/-- C10, counterexample: a staged view is pinned for the hash 3. The genesis
block with hash 3 fails syntactic verification under its own rules: `verify`
returns the wrapped failure after the single validator call, and `Reject()` is
not called on the staged view. The block with hash 3 at height 10 that passes
syntactic verification and names a record missing from shared memory fails the
presence check: again `Reject()` is not called. -/
theorem verify_early_failure_no_rollback :
    (exampleStagedVM (exampleLedger 0 0 0 0)).GetVerifiedAtomicState 3 = .inr ⟨none⟩ ∧
    (verify (exampleStagedVM (exampleLedger 0 0 0 0)) DeferedChecks.NewDeferedChecks
      (exampleBlock 3 1 0 500 []) true).1 =
      .error (.wrapf "syntactic block verification failed" (.foreign 1)) ∧
    (verify (exampleStagedVM (exampleLedger 0 0 0 0)) DeferedChecks.NewDeferedChecks
      (exampleBlock 3 1 0 500 []) true).2.2 = [.SyntacticVerify (exampleBlock 3 1 0 500 []) 0] ∧
    Event.AtomicStateReject 3 ∉
      (verify (exampleStagedVM (exampleLedger 0 0 0 0)) DeferedChecks.NewDeferedChecks
        (exampleBlock 3 1 0 500 []) true).2.2 ∧
    (verify (exampleStagedVM (exampleLedger 0 0 0 0)) DeferedChecks.NewDeferedChecks
      (exampleBlock 3 1 10 2000 [exampleImportTx]) true).1 =
      .error (.wrapShow .errMissingUTXOs .MissingKeyError) ∧
    (verify (exampleStagedVM (exampleLedger 0 0 0 0)) DeferedChecks.NewDeferedChecks
      (exampleBlock 3 1 10 2000 [exampleImportTx]) true).2.2 =
      [.SyntacticVerify (exampleBlock 3 1 10 2000 [exampleImportTx]) 1,
        .AtomicOps exampleImportTx, .SharedMemoryGet 0 [500]] ∧
    Event.AtomicStateReject 3 ∉
      (verify (exampleStagedVM (exampleLedger 0 0 0 0)) DeferedChecks.NewDeferedChecks
        (exampleBlock 3 1 10 2000 [exampleImportTx]) true).2.2 := by
  decide


/-! ## Accept and Reject -/

/-- C11: `Accept` on a block with a body sets the status to Accepted and then
makes its calls in the order: chain accept, put of the last accepted id,
`RemoveTx` for every atomic transaction, lookup of the staged view, commit
batch, `Accept` of the staged view, reward trigger, other trigger. It stops at
the first of the fallible steps that fails: it returns that step's error
(wrapped with a text naming the block for the chain accept, the put and the
commit batch) and makes none of the later calls, only the deferred `Abort`; so
a missing staged view makes `Accept` fail and the reward trigger does not run.
When every fallible step succeeds `Accept` returns nil, whatever calls the
reward trigger makes. -/
theorem Accept_order (vm : VM) (b : Block) (ethBlock : EthBlock)
    (hBody : b.ethBlock = some ethBlock) :
    (Accept vm b).2.1 = { b with status := .Accepted } ∧
    (∀ err, vm.blockChainAccept ethBlock = some err →
      (Accept vm b).1 = .error (.wrapf ("chain could not accept " ++ toString b.id) err) ∧
      (Accept vm b).2.2 = [.blockChainAccept ethBlock, .dbAbort]) ∧
    (∀ err, vm.blockChainAccept ethBlock = none → vm.acceptedBlockDBPut b.id = some err →
      (Accept vm b).1 = .error
        (.wrapf ("failed to put " ++ toString b.id ++ " as the last accepted block") err) ∧
      (Accept vm b).2.2 =
        [.blockChainAccept ethBlock, .acceptedBlockDBPut b.id, .dbAbort]) ∧
    (∀ err, vm.blockChainAccept ethBlock = none → vm.acceptedBlockDBPut b.id = none →
      vm.GetVerifiedAtomicState b.id = .inl err →
      (Accept vm b).1 = .error err ∧
      (Accept vm b).2.2 =
        [.blockChainAccept ethBlock, .acceptedBlockDBPut b.id] ++ b.atomicTxs.map .RemoveTx ++
          [.GetVerifiedAtomicState b.id, .dbAbort]) ∧
    (∀ staged err, vm.blockChainAccept ethBlock = none → vm.acceptedBlockDBPut b.id = none →
      vm.GetVerifiedAtomicState b.id = .inr staged → vm.CommitBatch = some err →
      (Accept vm b).1 = .error (.wrapf ("could not create commit batch processing block[" ++
        toString b.id ++ "]") err) ∧
      (Accept vm b).2.2 =
        [.blockChainAccept ethBlock, .acceptedBlockDBPut b.id] ++ b.atomicTxs.map .RemoveTx ++
          [.GetVerifiedAtomicState b.id, .CommitBatch, .dbAbort]) ∧
    (∀ staged err, vm.blockChainAccept ethBlock = none → vm.acceptedBlockDBPut b.id = none →
      vm.GetVerifiedAtomicState b.id = .inr staged → vm.CommitBatch = none →
      vm.AtomicStateAccept b.id = some err →
      (Accept vm b).1 = .error err ∧
      (Accept vm b).2.2 =
        [.blockChainAccept ethBlock, .acceptedBlockDBPut b.id] ++ b.atomicTxs.map .RemoveTx ++
          [.GetVerifiedAtomicState b.id, .CommitBatch, .AtomicStateAccept b.id, .dbAbort]) ∧
    (∀ staged, vm.blockChainAccept ethBlock = none → vm.acceptedBlockDBPut b.id = none →
      vm.GetVerifiedAtomicState b.id = .inr staged → vm.CommitBatch = none →
      vm.AtomicStateAccept b.id = none →
      (Accept vm b).1 = .nil ∧ (Accept vm b).2.1.status = .Accepted ∧
      (Accept vm b).2.2 = acceptCalls vm b ethBlock ++ [.dbAbort]) ∧
    ((Accept vm b).1 ≠ .nil →
      Event.TriggerRewardsTx ∉ (Accept vm b).2.2 ∧ Event.TriggerCommandTx ∉ (Accept vm b).2.2) := by
  unfold Accept
  simp only [hBody]
  refine ⟨?_, ?_, ?_, ?_, ?_, ?_, ?_, ?_⟩
  · cases h1 : vm.blockChainAccept ethBlock with
    | some e => rfl
    | none =>
      cases h2 : vm.acceptedBlockDBPut b.id with
      | some e => rfl
      | none =>
        cases h3 : vm.GetVerifiedAtomicState b.id with
        | inl e => rfl
        | inr st =>
          cases h4 : vm.CommitBatch with
          | some e => rfl
          | none => cases h5 : vm.AtomicStateAccept b.id <;> rfl
  · intro err h1
    simp [h1]
  · intro err h1 h2
    simp [h1, h2]
  · intro err h1 h2 h3
    simp [h1, h2, h3]
  · intro st err h1 h2 h3 h4
    simp [h1, h2, h3, h4]
  · intro st err h1 h2 h3 h4 h5
    simp [h1, h2, h3, h4, h5]
  · intro st h1 h2 h3 h4 h5
    simp [h1, h2, h3, h4, h5, acceptCalls]
  · cases h1 : vm.blockChainAccept ethBlock with
    | some e => simp
    | none =>
      cases h2 : vm.acceptedBlockDBPut b.id with
      | some e => simp
      | none =>
        cases h3 : vm.GetVerifiedAtomicState b.id with
        | inl e => simp
        | inr st =>
          cases h4 : vm.CommitBatch with
          | some e => simp
          | none =>
            cases h5 : vm.AtomicStateAccept b.id with
            | some e => simp
            | none => simp

/-- C11, witness: a block with two atomic transactions; with nothing staged
`Accept` fails at the lookup of the staged view and the reward trigger does not
run; with a staged view every step succeeds. -/
theorem Accept_order_witness :
    ((exampleVM (exampleLedger 0 5 0 0)).blockChainAccept ⟨3, ⟨1, 10, 2000⟩⟩ = none ∧
      (exampleVM (exampleLedger 0 5 0 0)).acceptedBlockDBPut 3 = none ∧
      (exampleVM (exampleLedger 0 5 0 0)).GetVerifiedAtomicState 3 = .inl (.foreign 404) ∧
      (Accept (exampleVM (exampleLedger 0 5 0 0))
        (exampleBlock 3 1 10 2000 [exampleImportTx, exampleExportTx])).1 =
          .error (.foreign 404) ∧
      (Accept (exampleVM (exampleLedger 0 5 0 0))
        (exampleBlock 3 1 10 2000 [exampleImportTx, exampleExportTx])).2.2 =
        [.blockChainAccept ⟨3, ⟨1, 10, 2000⟩⟩, .acceptedBlockDBPut 3] ++
          [exampleImportTx, exampleExportTx].map .RemoveTx ++
          [.GetVerifiedAtomicState 3, .dbAbort]) ∧
    ((exampleStagedVM (exampleLedger 0 5 0 0)).GetVerifiedAtomicState 3 = .inr ⟨none⟩ ∧
      (exampleStagedVM (exampleLedger 0 5 0 0)).CommitBatch = none ∧
      (exampleStagedVM (exampleLedger 0 5 0 0)).AtomicStateAccept 3 = none ∧
      (Accept (exampleStagedVM (exampleLedger 0 5 0 0))
        (exampleBlock 3 1 10 2000 [exampleImportTx, exampleExportTx])).1 = .nil ∧
      (Accept (exampleStagedVM (exampleLedger 0 5 0 0))
        (exampleBlock 3 1 10 2000 [exampleImportTx, exampleExportTx])).2.1.status = .Accepted ∧
      (Accept (exampleStagedVM (exampleLedger 0 5 0 0))
        (exampleBlock 3 1 10 2000 [exampleImportTx, exampleExportTx])).2.2 =
        acceptCalls (exampleStagedVM (exampleLedger 0 5 0 0))
          (exampleBlock 3 1 10 2000 [exampleImportTx, exampleExportTx]) ⟨3, ⟨1, 10, 2000⟩⟩ ++
          [.dbAbort]) :=
  ⟨⟨rfl, rfl, rfl,
      (Accept_order (exampleVM (exampleLedger 0 5 0 0))
        (exampleBlock 3 1 10 2000 [exampleImportTx, exampleExportTx]) ⟨3, ⟨1, 10, 2000⟩⟩
        rfl).2.2.2.1 (.foreign 404) rfl rfl rfl⟩,
    ⟨rfl, rfl, rfl,
      (Accept_order (exampleStagedVM (exampleLedger 0 5 0 0))
        (exampleBlock 3 1 10 2000 [exampleImportTx, exampleExportTx]) ⟨3, ⟨1, 10, 2000⟩⟩
        rfl).2.2.2.2.2.2.1 ⟨none⟩ rfl rfl rfl rfl rfl⟩⟩

/-- The calls of the re-issue loop do not depend on what `issueTx` returns. -/
theorem reissueLoop_eq (vm : VM) (txs : List Tx) :
    reissueLoop vm txs =
      (txs.map (fun tx => [Event.RemoveTx tx, Event.issueTx tx false])).flatten := by
  induction txs with
  | nil => rfl
  | cons tx rest ih =>
    unfold reissueLoop
    cases vm.issueTx tx false <;> simp [ih]

/-- C12: `Reject` on a block with a body sets the status to Rejected, removes
every atomic transaction from the mempool and re-issues it as non-local, in
block order and whatever `issueTx` returns, then looks up the staged view, rolls
it back and lets the chain remove the block. It returns the error of the first
of these three steps that fails, without making the later calls; it returns nil
exactly when all three succeed, and its outcome is the same for every behaviour
of `issueTx`. -/
theorem Reject_order (vm : VM) (b : Block) (ethBlock : EthBlock)
    (hBody : b.ethBlock = some ethBlock) :
    (Reject vm b).2.1 = { b with status := .Rejected } ∧
    (∀ err, vm.GetVerifiedAtomicState b.id = .inl err →
      (Reject vm b).1 = .error err ∧
      (Reject vm b).2.2 =
        (b.atomicTxs.map (fun tx => [Event.RemoveTx tx, Event.issueTx tx false])).flatten ++
          [.GetVerifiedAtomicState b.id]) ∧
    (∀ staged err, vm.GetVerifiedAtomicState b.id = .inr staged →
      staged.RejectResult = some err →
      (Reject vm b).1 = .error err ∧
      (Reject vm b).2.2 =
        (b.atomicTxs.map (fun tx => [Event.RemoveTx tx, Event.issueTx tx false])).flatten ++
          [.GetVerifiedAtomicState b.id, .AtomicStateReject b.id]) ∧
    (∀ staged, vm.GetVerifiedAtomicState b.id = .inr staged → staged.RejectResult = none →
      (Reject vm b).1 = .ofError (vm.blockChainReject ethBlock) ∧
      (Reject vm b).2.2 = rejectCalls b ethBlock) ∧
    ((Reject vm b).1 = .nil ↔
      ∃ staged, vm.GetVerifiedAtomicState b.id = .inr staged ∧ staged.RejectResult = none ∧
        vm.blockChainReject ethBlock = none) ∧
    (Reject vm b).1 ≠ .panicked ∧
    (∀ issue : Tx → Bool → Option GoError,
      Reject { vm with issueTx := issue } b = Reject vm b) := by
  refine ⟨?_, ?_, ?_, ?_, ?_, ?_, ?_⟩
  · unfold Reject
    simp only [hBody]
    cases h1 : vm.GetVerifiedAtomicState b.id with
    | inl e => rfl
    | inr st => cases h2 : st.RejectResult <;> simp [h2]
  · intro err h1
    unfold Reject
    simp [hBody, h1, reissueLoop_eq]
  · intro st err h1 h2
    unfold Reject
    simp [hBody, h1, h2, reissueLoop_eq]
  · intro st h1 h2
    unfold Reject
    simp [hBody, h1, h2, reissueLoop_eq, rejectCalls]
  · unfold Reject
    simp only [hBody]
    cases h1 : vm.GetVerifiedAtomicState b.id with
    | inl e => simp
    | inr st =>
      cases h2 : st.RejectResult with
      | some e => simp [h2]
      | none => cases h3 : vm.blockChainReject ethBlock <;> simp [h2, Ret.ofError]
  · unfold Reject
    simp only [hBody]
    cases h1 : vm.GetVerifiedAtomicState b.id with
    | inl e => simp
    | inr st =>
      cases h2 : st.RejectResult with
      | some e => simp [h2]
      | none => cases h3 : vm.blockChainReject ethBlock <;> simp [h2, Ret.ofError]
  · intro issue
    unfold Reject
    simp only [hBody, reissueLoop_eq]

/-- C12, witness: a block with two atomic transactions and a staged view, on a
VM whose `issueTx` always fails: `Reject` succeeds with status Rejected; and on
a VM with nothing staged it fails at the lookup. -/
theorem Reject_order_witness :
    (({ exampleStagedVM (exampleLedger 0 5 0 0) with
          issueTx := fun _ _ => some (.foreign 9) } : VM).GetVerifiedAtomicState 3
        = .inr ⟨none⟩ ∧
      (Reject { exampleStagedVM (exampleLedger 0 5 0 0) with
          issueTx := fun _ _ => some (.foreign 9) }
        (exampleBlock 3 1 10 2000 [exampleImportTx, exampleExportTx])).1 = .nil ∧
      (Reject { exampleStagedVM (exampleLedger 0 5 0 0) with
          issueTx := fun _ _ => some (.foreign 9) }
        (exampleBlock 3 1 10 2000 [exampleImportTx, exampleExportTx])).2.2 =
        rejectCalls (exampleBlock 3 1 10 2000 [exampleImportTx, exampleExportTx])
          ⟨3, ⟨1, 10, 2000⟩⟩) ∧
    ((exampleVM (exampleLedger 0 5 0 0)).GetVerifiedAtomicState 3 = .inl (.foreign 404) ∧
      (Reject (exampleVM (exampleLedger 0 5 0 0))
        (exampleBlock 3 1 10 2000 [exampleImportTx, exampleExportTx])).1 =
          .error (.foreign 404)) :=
  ⟨⟨rfl,
      (Reject_order { exampleStagedVM (exampleLedger 0 5 0 0) with
          issueTx := fun _ _ => some (.foreign 9) }
        (exampleBlock 3 1 10 2000 [exampleImportTx, exampleExportTx]) ⟨3, ⟨1, 10, 2000⟩⟩
        rfl).2.2.2.1 ⟨none⟩ rfl rfl⟩,
    ⟨rfl,
      ((Reject_order (exampleVM (exampleLedger 0 5 0 0))
        (exampleBlock 3 1 10 2000 [exampleImportTx, exampleExportTx]) ⟨3, ⟨1, 10, 2000⟩⟩
        rfl).2.1 (.foreign 404) rfl).1⟩⟩


/-! ## Semantic verification of CollectRewards -/

theorem capturedBlockTime_nonneg (e : EthBlock) : 0 ≤ capturedBlockTime e :=
  Int.emod_nonneg _ (by decide)

theorem capturedBlockTime_lt (e : EthBlock) : capturedBlockTime e < 3600 :=
  Int.emod_lt_of_pos _ (by decide)

/-- Once the generic verification, the structural checks and the ledger lookup
have passed, `SemanticVerify` captures the block time and decides on the time
check and then on the export limit. -/
theorem SemanticVerify_after_checks (vm : VM) (ucx : UnsignedCollectRewardsTx) (stx : Tx)
    (block : Block) (baseFee : Option Int) (rules : Rules) (src : EVMInput) (amt : Nat)
    (owners : OutputOwners) (state : StateDB) (ethBlock : EthBlock)
    (hGeneric : vm.ExportSemanticVerify ucx.toUnsignedExportTx stx block baseFee rules = none)
    (hIns : ucx.Ins = [src])
    (hOuts : ucx.ExportedOutputs = [⟨vm.cfg.AVAXAssetID, .TransferOutput amt owners⟩])
    (hSrc : src.Address = vm.cfg.BlackholeAddr)
    (hOwner : owners.Addrs = [FeeRewardAddressID])
    (hState : vm.State = .inr state)
    (hBody : block.ethBlock = some ethBlock) :
    SemanticVerify vm ucx stx block baseFee rules =
      if capturedBlockTime ethBlock < (state.GetState vm.cfg.BlackholeAddr TimestampSlot : Int) then
        ⟨.error .errTimeNotPassed, some (capturedBlockTime ethBlock)⟩
      else if calculateRate src.Amount ExportRewardRate < FeeRewardMinAmountToExport then
        ⟨.error .errExportLimit, some (capturedBlockTime ethBlock)⟩
      else ⟨.nil, some (capturedBlockTime ethBlock)⟩ := by
  unfold SemanticVerify
  simp [hGeneric, hIns, hOuts, hSrc, hOwner, hState, hBody]

/-- A `SemanticVerify` that succeeds has passed every check. -/
theorem SemanticVerify_nil (vm : VM) (ucx : UnsignedCollectRewardsTx) (stx : Tx)
    (block : Block) (baseFee : Option Int) (rules : Rules)
    (h : (SemanticVerify vm ucx stx block baseFee rules).ret = .nil) :
    vm.ExportSemanticVerify ucx.toUnsignedExportTx stx block baseFee rules = none ∧
    ∃ src amt owners state ethBlock,
      ucx.Ins = [src] ∧
      ucx.ExportedOutputs = [⟨vm.cfg.AVAXAssetID, .TransferOutput amt owners⟩] ∧
      src.Address = vm.cfg.BlackholeAddr ∧
      owners.Addrs = [FeeRewardAddressID] ∧
      vm.State = .inr state ∧
      block.ethBlock = some ethBlock ∧
      ¬ capturedBlockTime ethBlock < (state.GetState vm.cfg.BlackholeAddr TimestampSlot : Int) ∧
      ¬ calculateRate src.Amount ExportRewardRate < FeeRewardMinAmountToExport ∧
      (SemanticVerify vm ucx stx block baseFee rules).blockTime =
        some (capturedBlockTime ethBlock) := by
  unfold SemanticVerify at h ⊢
  cases hG : vm.ExportSemanticVerify ucx.toUnsignedExportTx stx block baseFee rules with
  | some e => simp [hG] at h
  | none =>
    refine ⟨rfl, ?_⟩
    rcases hI : ucx.Ins with _ | ⟨src, _ | ⟨x, l⟩⟩
    · simp [hG, hI] at h
    · rcases hO : ucx.ExportedOutputs with _ | ⟨out, _ | ⟨y, l⟩⟩
      · simp [hG, hI, hO] at h
      · obtain ⟨asset, o⟩ := out
        cases o with
        | otherType t => simp [hG, hI, hO] at h
        | TransferOutput amt owners =>
          by_cases hA : asset = vm.cfg.AVAXAssetID
          · by_cases hS : src.Address = vm.cfg.BlackholeAddr
            · by_cases hW : owners.Addrs.length ≠ 1 ∨
                  owners.Addrs.head? ≠ some FeeRewardAddressID
              · simp [hG, hI, hO, hA, hS, hW] at h
              · have hAddrs : owners.Addrs = [FeeRewardAddressID] := by
                  simp only [not_or, not_not] at hW
                  obtain ⟨a, ha⟩ := List.length_eq_one.mp hW.1
                  rw [ha] at hW ⊢
                  simpa using hW.2
                cases hSt : vm.State with
                | inl e => simp [hG, hI, hO, hA, hS, hW, hSt] at h
                | inr state =>
                  cases hB : block.ethBlock with
                  | none => simp [hG, hI, hO, hA, hS, hW, hSt, hB] at h
                  | some eb =>
                    by_cases hT : capturedBlockTime eb <
                        (state.GetState vm.cfg.BlackholeAddr TimestampSlot : Int)
                    · simp [hG, hI, hO, hA, hS, hW, hSt, hB, hT] at h
                    · by_cases hL : calculateRate src.Amount ExportRewardRate <
                          FeeRewardMinAmountToExport
                      · simp [hG, hI, hO, hA, hS, hW, hSt, hB, hT, hL] at h
                      · refine ⟨src, amt, owners, state, eb, rfl, by rw [hA], hS, hAddrs,
                          rfl, rfl, hT, hL, ?_⟩
                        simp [hA, hS, hW, hT, hL]
            · simp [hG, hI, hO, hA, hS] at h
          · simp [hG, hI, hO, hA] at h
      · simp [hG, hI, hO] at h
    · simp [hG, hI] at h


/-- The generic verification of the exported outputs rejects the single
destination address with threshold 2 (unspendable) and with threshold 0
(unoptimized), and `SemanticVerify` returns that error. -/
theorem SemanticVerify_rejects_other_threshold :
    (SemanticVerify (exampleCheckedVM (exampleLedger 0 5 0 0)) (exampleThresholdTx 2)
      ⟨.collectRewards (exampleThresholdTx 2)⟩ (exampleBlock 3 1 10 2000 []) none 1).ret
      = .error (.errorf "output is unspendable") ∧
    (SemanticVerify (exampleCheckedVM (exampleLedger 0 5 0 0)) (exampleThresholdTx 0)
      ⟨.collectRewards (exampleThresholdTx 0)⟩ (exampleBlock 3 1 10 2000 []) none 1).ret
      = .error (.errorf "output is unoptimized") ∧
    (SemanticVerify (exampleCheckedVM (exampleLedger 0 5 0 0)) (exampleThresholdTx 1)
      ⟨.collectRewards (exampleThresholdTx 1)⟩ (exampleBlock 3 1 10 2000 []) none 1).ret
      = .nil := by
  decide

/-- C13: when `SemanticVerify` returns success, the transaction has exactly one
input and exactly one exported output, the output is a transfer output of the
network's native asset, the input address is the fixed protocol source address,
and the output's owners are exactly the single fixed destination address with
threshold 1. The single address comes from the owner check of line 95; the
threshold comes from the generic Export verification of line 67, which accepts
only when the exported outputs pass their verification
(`verifyExportedOutputs`): a threshold above the one address or a threshold of
zero is rejected there. -/
theorem SemanticVerify_structure (vm : VM) (ucx : UnsignedCollectRewardsTx) (stx : Tx)
    (block : Block) (baseFee : Option Int) (rules : Rules)
    (hGeneric : vm.ExportSemanticVerify ucx.toUnsignedExportTx stx block baseFee rules = none →
      verifyExportedOutputs ucx.ExportedOutputs = none)
    (h : (SemanticVerify vm ucx stx block baseFee rules).ret = .nil) :
    ∃ src amt owners,
      ucx.Ins = [src] ∧
      ucx.ExportedOutputs = [⟨vm.cfg.AVAXAssetID, .TransferOutput amt owners⟩] ∧
      src.Address = vm.cfg.BlackholeAddr ∧
      owners.Addrs = [FeeRewardAddressID] ∧
      owners.Threshold = 1 := by
  obtain ⟨hG, src, amt, owners, state, eb, hI, hO, hS, hA, hSt, hB, hT, hL, -⟩ :=
    SemanticVerify_nil vm ucx stx block baseFee rules h
  refine ⟨src, amt, owners, hI, hO, hS, hA, ?_⟩
  have hV := hGeneric hG
  rw [hO] at hV
  simp only [verifyExportedOutputs, TransferableOutput.Verify, OutputOwners.Verify, hA] at hV
  by_cases h0 : amt = 0
  · simp [h0] at hV
  · by_cases h1 : owners.Threshold > 1
    · simp [h0, h1] at hV
    · by_cases h2 : owners.Threshold = 0
      · simp [h0, h2] at hV
      · omega

/-- C13, witness: the transaction that `NewCollectRewardsTx` builds passes the
verification of its exported outputs and `SemanticVerify` on an empty ledger at
block time 2000. -/
theorem SemanticVerify_structure_witness :
    ((exampleCheckedVM (exampleLedger 0 5 0 0)).ExportSemanticVerify
        (exampleTx 1000000 5 none).toUnsignedExportTx
        ⟨.collectRewards (exampleTx 1000000 5 none)⟩ (exampleBlock 3 1 10 2000 []) none 1 = none →
      verifyExportedOutputs (exampleTx 1000000 5 none).ExportedOutputs = none) ∧
    (SemanticVerify (exampleCheckedVM (exampleLedger 0 5 0 0)) (exampleTx 1000000 5 none)
      ⟨.collectRewards (exampleTx 1000000 5 none)⟩ (exampleBlock 3 1 10 2000 []) none 1).ret
      = .nil ∧
    ∃ src amt owners,
      (exampleTx 1000000 5 none).Ins = [src] ∧
      (exampleTx 1000000 5 none).ExportedOutputs =
        [⟨(exampleCheckedVM (exampleLedger 0 5 0 0)).cfg.AVAXAssetID,
          .TransferOutput amt owners⟩] ∧
      src.Address = (exampleCheckedVM (exampleLedger 0 5 0 0)).cfg.BlackholeAddr ∧
      owners.Addrs = [FeeRewardAddressID] ∧
      owners.Threshold = 1 :=
  ⟨fun hv => hv, by decide,
    SemanticVerify_structure (exampleCheckedVM (exampleLedger 0 5 0 0))
      (exampleTx 1000000 5 none) ⟨.collectRewards (exampleTx 1000000 5 none)⟩
      (exampleBlock 3 1 10 2000 []) none 1 (fun hv => hv) (by decide)⟩

/-- C17, the code at the failing inputs. For input amount 500000 the exportable
amount `floor(500000 * 300000 / 1000000)` is 150000, below the minimum 200000,
but the code divides by `RateDenominator = 1`: `calculateRate` gives
150000000000 and `SemanticVerify` succeeds instead of returning
`errExportLimit`. For input amount 2^59 the product 2^59 * 300000 is a multiple
of 2^64: `calculateRate` gives 0 and `SemanticVerify` returns `errExportLimit`,
although the exportable amount is far above the minimum under either
denominator. -/
theorem SemanticVerify_export_limit_at_500000 :
    500000 * 300000 / 1000000 = 150000 ∧
    150000 < FeeRewardMinAmountToExport ∧
    calculateRate 500000 ExportRewardRate = 150000000000 ∧
    (SemanticVerify (exampleVM (exampleLedger 0 5 0 0)) (exampleTx 500000 5 none)
      ⟨.collectRewards (exampleTx 500000 5 none)⟩ (exampleBlock 3 1 10 2000 []) none 1).ret
      = .nil ∧
    ¬ (2 ^ 59 * ExportRewardRate / RateDenominator < FeeRewardMinAmountToExport) ∧
    ¬ (2 ^ 59 * ExportRewardRate / 1000000 < FeeRewardMinAmountToExport) ∧
    calculateRate (2 ^ 59) ExportRewardRate = 0 ∧
    (SemanticVerify (exampleVM (exampleLedger 0 5 0 0)) (exampleTx (2 ^ 59) 5 none)
      ⟨.collectRewards (exampleTx (2 ^ 59) 5 none)⟩ (exampleBlock 3 1 10 2000 []) none 1).ret
      = .error .errExportLimit := by
  decide


/-! ## The trigger marker -/

/-- The trigger marker that a successful transfer stores for the source. -/
theorem EVMStateTransfer_nil_timestamp (cfg : Config) (ucx : UnsignedCollectRewardsTx)
    (s : StateDB) (src : EVMInput) (hIns : ucx.Ins = [src])
    (h : (EVMStateTransfer cfg ucx s).ret = .nil) :
    (s.GetState src.Address TimestampSlot ≠ 0 →
      (EVMStateTransfer cfg ucx s).state.GetState src.Address TimestampSlot =
        BigToHash ((s.GetState src.Address TimestampSlot : Int) + TimeInterval)) ∧
    (s.GetState src.Address TimestampSlot = 0 →
      ∃ t, ucx.blockTime = some t ∧
        (EVMStateTransfer cfg ucx s).state.GetState src.Address TimestampSlot =
          BigToHash (t + TimeInterval)) := by
  obtain ⟨src2, out, hI, hO, -, -⟩ := EVMStateTransfer_nil cfg ucx s h
  have hs : src2 = src := by rw [hI] at hIns; simpa using hIns
  subst hs
  rw [EVMStateTransfer_one cfg ucx s src2 out hI hO] at h ⊢
  simp only [StateDB.GetState]
  by_cases h1 : s.balance src2.Address < exportPlusIncentive src2.Amount * cfg.x2cRate
  · simp [h1] at h
  · by_cases h2 : s.storage src2.Address BalanceSlot + amountToBurn src2.Amount * cfg.x2cRate >
        s.balance src2.Address - exportPlusIncentive src2.Amount * cfg.x2cRate
    · simp [h1, h2] at h
    · by_cases h3 : s.storage src2.Address TimestampSlot = 0
      · cases hb : ucx.blockTime with
        | none => simp [h1, h2, h3, hb] at h
        | some t =>
          by_cases h4 : s.nonce src2.Address = src2.Nonce
          · simp [h1, h2, h3, h4, StateDB.SetNonce, StateDB.SetState]
          · simp [h1, h2, h3, hb, h4] at h
      · by_cases h4 : s.nonce src2.Address = src2.Nonce
        · simp [h1, h2, h3, h4, StateDB.SetNonce, StateDB.SetState]
        · simp [h1, h2, h3, h4] at h

theorem BigToHash_add_interval (n : Nat) (h : n + 3600 < 2 ^ 256) :
    BigToHash ((n : Int) + TimeInterval) = n + 3600 := by
  have : ((n : Int) + (TimeInterval : Int)) = ((n + 3600 : Nat) : Int) := by
    simp [TimeInterval]
  rw [this, BigToHash_natCast, Nat.mod_eq_of_lt h]

theorem BigToHash_add_interval_mod (n : Nat) :
    BigToHash ((n : Int) + TimeInterval) = (n + 3600) % 2 ^ 256 := by
  have : ((n : Int) + (TimeInterval : Int)) = ((n + 3600 : Nat) : Int) := by
    simp [TimeInterval]
  rw [this, BigToHash_natCast]

theorem BigToHash_captured (e : EthBlock) :
    BigToHash (capturedBlockTime e + TimeInterval) = (capturedBlockTime e).toNat + 3600 := by
  have h0 := capturedBlockTime_nonneg e
  have h1 := capturedBlockTime_lt e
  obtain ⟨n, hn⟩ := Int.eq_ofNat_of_zero_le h0
  rw [hn] at h1 ⊢
  have hlt : n < 3600 := by exact_mod_cast h1
  rw [BigToHash_add_interval n (by
    have : (7200 : Nat) < 2 ^ 256 := by decide
    omega)]
  simp


/-- C18 (amended): after a successful `EVMStateTransfer` the marker stored at
`TimestampSlot` of the source is the previous marker plus 3600 cut to 32 bytes
(modulo 2^256) when the previous marker was non-zero, which is the previous
marker plus 3600 whenever that sum is below 2^256; and it is the captured block
time plus 3600 when the previous marker was zero and `blockTime` holds the
block time that `SemanticVerify` captures. A `SemanticVerify` that succeeds
leaves `blockTime` set to that captured block time. -/
theorem EVMStateTransfer_next_trigger (cfg : Config) (ucx : UnsignedCollectRewardsTx)
    (s : StateDB) (src : EVMInput) (hIns : ucx.Ins = [src])
    (h : (EVMStateTransfer cfg ucx s).ret = .nil) :
    (s.GetState src.Address TimestampSlot ≠ 0 →
      (EVMStateTransfer cfg ucx s).state.GetState src.Address TimestampSlot =
        (s.GetState src.Address TimestampSlot + 3600) % 2 ^ 256) ∧
    (s.GetState src.Address TimestampSlot ≠ 0 →
      s.GetState src.Address TimestampSlot + 3600 < 2 ^ 256 →
      (EVMStateTransfer cfg ucx s).state.GetState src.Address TimestampSlot =
        s.GetState src.Address TimestampSlot + 3600) ∧
    (s.GetState src.Address TimestampSlot = 0 →
      ∀ ethBlock, ucx.blockTime = some (capturedBlockTime ethBlock) →
      (EVMStateTransfer cfg ucx s).state.GetState src.Address TimestampSlot =
        (capturedBlockTime ethBlock).toNat + 3600) ∧
    (∀ (vm : VM) (stx : Tx) (block : Block) (baseFee : Option Int) (rules : Rules),
      (SemanticVerify vm ucx stx block baseFee rules).ret = .nil →
      ∃ ethBlock, block.ethBlock = some ethBlock ∧
        (SemanticVerify vm ucx stx block baseFee rules).blockTime =
          some (capturedBlockTime ethBlock)) := by
  obtain ⟨hnz, hz⟩ := EVMStateTransfer_nil_timestamp cfg ucx s src hIns h
  refine ⟨?_, ?_, ?_, ?_⟩
  · intro hp
    rw [hnz hp, BigToHash_add_interval_mod]
  · intro hp hlt
    rw [hnz hp, BigToHash_add_interval _ hlt]
  · intro hp eb hbt
    obtain ⟨t, ht, hst⟩ := hz hp
    rw [hbt] at ht
    cases ht
    rw [hst, BigToHash_captured]
  · intro vm stx block baseFee rules hv
    obtain ⟨-, _, _, _, _, eb, -, -, -, -, -, hB, -, -, hbt⟩ :=
      SemanticVerify_nil vm ucx stx block baseFee rules hv
    exact ⟨eb, hB, hbt⟩

/-- C18, witness: a first transfer on a zero marker with the block time 2000
captured, and a transfer on the marker 5600. -/
theorem EVMStateTransfer_next_trigger_witness :
    ((EVMStateTransfer exampleConfig
        (exampleTx 1000000 5 (some (capturedBlockTime ⟨3, ⟨1, 10, 2000⟩⟩)))
        (exampleLedger (10 ^ 30) 5 0 0)).ret = .nil ∧
      (exampleLedger (10 ^ 30) 5 0 0).GetState exampleConfig.BlackholeAddr TimestampSlot = 0 ∧
      (EVMStateTransfer exampleConfig
        (exampleTx 1000000 5 (some (capturedBlockTime ⟨3, ⟨1, 10, 2000⟩⟩)))
        (exampleLedger (10 ^ 30) 5 0 0)).state.GetState exampleConfig.BlackholeAddr
          TimestampSlot = (capturedBlockTime ⟨3, ⟨1, 10, 2000⟩⟩).toNat + 3600) ∧
    ((EVMStateTransfer exampleConfig (exampleTx 1000000 5 none)
        (exampleLedger (10 ^ 30) 5 0 5600)).ret = .nil ∧
      (exampleLedger (10 ^ 30) 5 0 5600).GetState exampleConfig.BlackholeAddr TimestampSlot
        ≠ 0 ∧
      (exampleLedger (10 ^ 30) 5 0 5600).GetState exampleConfig.BlackholeAddr TimestampSlot
        + 3600 < 2 ^ 256 ∧
      (EVMStateTransfer exampleConfig (exampleTx 1000000 5 none)
        (exampleLedger (10 ^ 30) 5 0 5600)).state.GetState exampleConfig.BlackholeAddr
          TimestampSlot =
        (exampleLedger (10 ^ 30) 5 0 5600).GetState exampleConfig.BlackholeAddr TimestampSlot
          + 3600) :=
  ⟨⟨by decide, by decide,
      (EVMStateTransfer_next_trigger exampleConfig
        (exampleTx 1000000 5 (some (capturedBlockTime ⟨3, ⟨1, 10, 2000⟩⟩)))
        (exampleLedger (10 ^ 30) 5 0 0) ⟨exampleConfig.BlackholeAddr, 1000000, 7, 5⟩ rfl
        (by decide)).2.2.1 (by decide) ⟨3, ⟨1, 10, 2000⟩⟩ rfl⟩,
    ⟨by decide, by decide, by decide,
      (EVMStateTransfer_next_trigger exampleConfig (exampleTx 1000000 5 none)
        (exampleLedger (10 ^ 30) 5 0 5600) ⟨exampleConfig.BlackholeAddr, 1000000, 7, 5⟩ rfl
        (by decide)).2.1 (by decide) (by decide)⟩⟩

/-- C18, counterexample: the previous marker is 2^256 - 1, the largest value of
a 32-byte slot. The transfer succeeds and stores 3599, which is not the
previous marker plus 3600. -/
theorem EVMStateTransfer_next_trigger_wraps :
    (exampleLedger (10 ^ 30) 5 0 (2 ^ 256 - 1)).GetState exampleConfig.BlackholeAddr
      TimestampSlot = 2 ^ 256 - 1 ∧
    (EVMStateTransfer exampleConfig (exampleTx 1000000 5 (some 100))
      (exampleLedger (10 ^ 30) 5 0 (2 ^ 256 - 1))).ret = .nil ∧
    (EVMStateTransfer exampleConfig (exampleTx 1000000 5 (some 100))
      (exampleLedger (10 ^ 30) 5 0 (2 ^ 256 - 1))).state.GetState exampleConfig.BlackholeAddr
        TimestampSlot = 3599 ∧
    (3599 : Nat) ≠ 2 ^ 256 - 1 + 3600 := by
  decide

/-- C20 (amended): after a successful `EVMStateTransfer` the marker stored at
`TimestampSlot` of the source is at least 3600, provided the step did not wrap
around 2^256: either the previous marker was non-zero with the marker plus 3600
below 2^256, or it was zero and `blockTime` held the block time captured by
`SemanticVerify`. And on every ledger whose marker at the protocol source is at
least 3600, `SemanticVerify` succeeds for no transaction and no block, since
the captured block time is below 3600. -/
theorem trigger_marker_blocks_verification :
    (∀ (cfg : Config) (ucx : UnsignedCollectRewardsTx) (s : StateDB) (src : EVMInput),
      ucx.Ins = [src] → (EVMStateTransfer cfg ucx s).ret = .nil →
      (s.GetState src.Address TimestampSlot ≠ 0 →
        s.GetState src.Address TimestampSlot + 3600 < 2 ^ 256) →
      (s.GetState src.Address TimestampSlot = 0 →
        ∃ ethBlock, ucx.blockTime = some (capturedBlockTime ethBlock)) →
      3600 ≤ (EVMStateTransfer cfg ucx s).state.GetState src.Address TimestampSlot) ∧
    (∀ (vm : VM) (ucx : UnsignedCollectRewardsTx) (stx : Tx) (block : Block)
      (baseFee : Option Int) (rules : Rules),
      (∀ state, vm.State = .inr state →
        3600 ≤ state.GetState vm.cfg.BlackholeAddr TimestampSlot) →
      (SemanticVerify vm ucx stx block baseFee rules).ret ≠ .nil) := by
  constructor
  · intro cfg ucx s src hIns h hnw hcap
    obtain ⟨hnz, hz⟩ := EVMStateTransfer_nil_timestamp cfg ucx s src hIns h
    by_cases hp : s.GetState src.Address TimestampSlot = 0
    · obtain ⟨eb, hbt⟩ := hcap hp
      obtain ⟨t, ht, hst⟩ := hz hp
      rw [hbt] at ht
      cases ht
      rw [hst, BigToHash_captured]
      omega
    · rw [hnz hp, BigToHash_add_interval _ (hnw hp)]
      omega
  · intro vm ucx stx block baseFee rules hmarker hnil
    obtain ⟨-, _, _, _, state, eb, -, -, -, -, hSt, -, hT, -, -⟩ :=
      SemanticVerify_nil vm ucx stx block baseFee rules hnil
    have h1 := hmarker state hSt
    have h2 := capturedBlockTime_lt eb
    apply hT
    have : (3600 : Int) ≤ (state.GetState vm.cfg.BlackholeAddr TimestampSlot : Int) := by
      exact_mod_cast h1
    omega

/-- C20, witness: a first transfer with the block time 2000 captured leaves the
marker 5600, and on that ledger `SemanticVerify` fails at block time 9000. -/
theorem trigger_marker_blocks_verification_witness :
    ((exampleTx 1000000 5 (some (capturedBlockTime ⟨3, ⟨1, 10, 2000⟩⟩))).Ins =
        [⟨exampleConfig.BlackholeAddr, 1000000, 7, 5⟩] ∧
      (EVMStateTransfer exampleConfig
        (exampleTx 1000000 5 (some (capturedBlockTime ⟨3, ⟨1, 10, 2000⟩⟩)))
        (exampleLedger (10 ^ 30) 5 0 0)).ret = .nil ∧
      3600 ≤ (EVMStateTransfer exampleConfig
        (exampleTx 1000000 5 (some (capturedBlockTime ⟨3, ⟨1, 10, 2000⟩⟩)))
        (exampleLedger (10 ^ 30) 5 0 0)).state.GetState exampleConfig.BlackholeAddr
          TimestampSlot) ∧
    ((∀ state, (exampleVM (exampleLedger (10 ^ 30) 6 0 5600)).State = .inr state →
        3600 ≤ state.GetState
          (exampleVM (exampleLedger (10 ^ 30) 6 0 5600)).cfg.BlackholeAddr TimestampSlot) ∧
      (SemanticVerify (exampleVM (exampleLedger (10 ^ 30) 6 0 5600)) (exampleTx 1000000 6 none)
        ⟨.collectRewards (exampleTx 1000000 6 none)⟩ (exampleBlock 4 3 11 9000 []) none 1).ret
        ≠ .nil) :=
  ⟨⟨rfl, by decide,
      trigger_marker_blocks_verification.1 exampleConfig
        (exampleTx 1000000 5 (some (capturedBlockTime ⟨3, ⟨1, 10, 2000⟩⟩)))
        (exampleLedger (10 ^ 30) 5 0 0) ⟨exampleConfig.BlackholeAddr, 1000000, 7, 5⟩ rfl
        (by decide) (fun hne => absurd (by decide) hne) (fun _ => ⟨⟨3, ⟨1, 10, 2000⟩⟩, rfl⟩)⟩,
    ⟨fun state hst => by
        have hs : state = exampleLedger (10 ^ 30) 6 0 5600 := by
          injection hst with h; exact h.symm
        subst hs
        decide,
      trigger_marker_blocks_verification.2 (exampleVM (exampleLedger (10 ^ 30) 6 0 5600))
        (exampleTx 1000000 6 none) ⟨.collectRewards (exampleTx 1000000 6 none)⟩
        (exampleBlock 4 3 11 9000 []) none 1
        (fun state hst => by
          have hs : state = exampleLedger (10 ^ 30) 6 0 5600 := by
            injection hst with h; exact h.symm
          subst hs
          decide)⟩⟩

/-- C20, counterexample: the previous marker is 2^256 - 3600. The transfer
succeeds and stores the marker 0, below 3600; on the ledger it leaves, a later
CollectRewards transaction passes `SemanticVerify`. -/
theorem trigger_marker_wraps_to_zero :
    (exampleLedger (10 ^ 30) 5 0 (2 ^ 256 - 3600)).GetState exampleConfig.BlackholeAddr
      TimestampSlot = 2 ^ 256 - 3600 ∧
    (EVMStateTransfer exampleConfig (exampleTx 1000000 5 (some 100))
      (exampleLedger (10 ^ 30) 5 0 (2 ^ 256 - 3600))).ret = .nil ∧
    (EVMStateTransfer exampleConfig (exampleTx 1000000 5 (some 100))
      (exampleLedger (10 ^ 30) 5 0 (2 ^ 256 - 3600))).state.GetState
        exampleConfig.BlackholeAddr TimestampSlot = 0 ∧
    (SemanticVerify
      (exampleVM (EVMStateTransfer exampleConfig (exampleTx 1000000 5 (some 100))
        (exampleLedger (10 ^ 30) 5 0 (2 ^ 256 - 3600))).state)
      (exampleTx 1000000 6 none) ⟨.collectRewards (exampleTx 1000000 6 none)⟩
      (exampleBlock 4 3 11 9000 []) none 1).ret = .nil := by
  decide


/-! ## Amounts of CollectRewards -/

/-- C14, the code at the failing inputs. For input amount 4 * 10^13 on a source
holding 10^30 the transfer succeeds; the export and incentive parts are
1.2 * 10^19 each (the code divides by `RateDenominator = 1`), their `uint64` sum
wraps to 5553255926290448384, and the source is debited by that sum times
`x2cRate`, not by `(E + I) * x2cRate`, while the incentive pool is credited by
the full `I * x2cRate`, more than the source lost. For input amount 1000000 the
parts under the denominator 1000000 are 300000 each, but the source is debited
by 600000000000 * x2cRate. -/
theorem EVMStateTransfer_amounts_at_overflow :
    (EVMStateTransfer exampleConfig (exampleTx 40000000000000 5 (some 100))
      (exampleLedger (10 ^ 30) 5 0 0)).ret = .nil ∧
    40000000000000 * ExportRewardRate / RateDenominator = 12000000000000000000 ∧
    40000000000000 * IncentivePoolRewardRate / RateDenominator = 12000000000000000000 ∧
    (exampleLedger (10 ^ 30) 5 0 0).GetBalance exampleConfig.BlackholeAddr = 10 ^ 30 ∧
    (EVMStateTransfer exampleConfig (exampleTx 40000000000000 5 (some 100))
      (exampleLedger (10 ^ 30) 5 0 0)).state.GetBalance exampleConfig.BlackholeAddr =
        10 ^ 30 - 5553255926290448384 * exampleConfig.x2cRate ∧
    5553255926290448384 ≠ 12000000000000000000 + 12000000000000000000 ∧
    (exampleLedger (10 ^ 30) 5 0 0).GetBalance FeeRewardAddress = 0 ∧
    (EVMStateTransfer exampleConfig (exampleTx 40000000000000 5 (some 100))
      (exampleLedger (10 ^ 30) 5 0 0)).state.GetBalance FeeRewardAddress =
        12000000000000000000 * exampleConfig.x2cRate ∧
    (EVMStateTransfer exampleConfig (exampleTx 1000000 5 (some 100))
      (exampleLedger (10 ^ 30) 5 0 0)).ret = .nil ∧
    1000000 * ExportRewardRate / 1000000 = 300000 ∧
    1000000 * IncentivePoolRewardRate / 1000000 = 300000 ∧
    (EVMStateTransfer exampleConfig (exampleTx 1000000 5 (some 100))
      (exampleLedger (10 ^ 30) 5 0 0)).state.GetBalance exampleConfig.BlackholeAddr =
        10 ^ 30 - 600000000000 * exampleConfig.x2cRate := by
  decide

/-- C19, the code at the failing inputs. For a declared output amount of 1000000
`AtomicOps` returns the destination chain with one put request and no remove
request, and the UTXO it encodes carries the transaction id, output index 0,
the output's asset and owners, but the amount 300000000000: 300000 times the
declared amount, where the export part `floor(1000000 * 300000 / 1000000)` is
300000. For a declared amount of 2^59 the encoded amount is 0. -/
theorem AtomicOps_amount_at_1000000 (codec : Codec) :
    (exampleTx 1000000 5 none).AtomicOps codec =
      (match codec.Marshal
          ⟨99, 0, exampleConfig.AVAXAssetID,
            .TransferOutput 300000000000 ⟨0, 1, [FeeRewardAddressID]⟩⟩ with
        | .inl err => .inl err
        | .inr utxoBytes =>
          .inr (exampleConfig.PlatformChainID,
            ⟨[], [⟨codec.InputID 99 0, utxoBytes, [FeeRewardAddressID]⟩]⟩)) ∧
    1000000 * ExportRewardRate / 1000000 = 300000 ∧
    (1000000 : Nat) < 300000000000 ∧
    (exampleTx (2 ^ 59) 5 none).AtomicOps codec =
      (match codec.Marshal
          ⟨99, 0, exampleConfig.AVAXAssetID, .TransferOutput 0 ⟨0, 1, [FeeRewardAddressID]⟩⟩ with
        | .inl err => .inl err
        | .inr utxoBytes =>
          .inr (exampleConfig.PlatformChainID,
            ⟨[], [⟨codec.InputID 99 0, utxoBytes, [FeeRewardAddressID]⟩]⟩)) := by
  refine ⟨?_, by decide, by decide, ?_⟩
  · have h : calculateRate 1000000 ExportRewardRate = 300000000000 := by decide
    simp only [UnsignedCollectRewardsTx.AtomicOps, exampleTx, h]
  · have h : calculateRate (2 ^ 59) ExportRewardRate = 0 := by decide
    simp only [UnsignedCollectRewardsTx.AtomicOps, exampleTx, h]


/-! ## The verdict of syntactic verification -/

/-- C15: for a block with a body for which the resolution of deferred checks
under its id succeeds (or nothing is pending), the verdict of `syntacticVerify`
is the verdict of validation under the block's own rules when that validation
succeeds or the block is at height 0; otherwise, when the parent is known
locally as a block with a body, it is exactly the verdict of validating the
block under the rules resolved from the parent's height and timestamp. In each
of these cases the registry is the one the resolution left: the block is not
added. (When the lookup of the parent hands back something that is not a block
with a body, the verdict is the failure "cannot extract block".) -/
theorem syntacticVerify_verdict (vm : VM) (d : DeferedChecks) (b : Block) (ethBlock : EthBlock)
    (hBody : b.ethBlock = some ethBlock)
    (hResolved : (DeferedChecks.Verify vm d b
      (vm.CaminoRules ethBlock.Header.Number ethBlock.Header.Time)).1 = none) :
    (vm.SyntacticVerify b (vm.CaminoRules ethBlock.Header.Number ethBlock.Header.Time) = none →
      (syntacticVerify vm d (some b)).1 = none ∧
      (syntacticVerify vm d (some b)).2.1 = (DeferedChecks.Verify vm d b
        (vm.CaminoRules ethBlock.Header.Number ethBlock.Header.Time)).2.1) ∧
    (ethBlock.Header.Number = 0 →
      (syntacticVerify vm d (some b)).1 =
        vm.SyntacticVerify b (vm.CaminoRules ethBlock.Header.Number ethBlock.Header.Time) ∧
      (syntacticVerify vm d (some b)).2.1 = (DeferedChecks.Verify vm d b
        (vm.CaminoRules ethBlock.Header.Number ethBlock.Header.Time)).2.1) ∧
    (∀ err parent parentEth,
      vm.SyntacticVerify b (vm.CaminoRules ethBlock.Header.Number ethBlock.Header.Time)
        = some err →
      0 < ethBlock.Header.Number →
      vm.GetBlockInternal ethBlock.ParentHash = .inr (.block parent) →
      parent.ethBlock = some parentEth →
      (syntacticVerify vm d (some b)).1 =
        vm.SyntacticVerify b (vm.CaminoRules parentEth.Header.Number parentEth.Header.Time) ∧
      (syntacticVerify vm d (some b)).2.1 = (DeferedChecks.Verify vm d b
        (vm.CaminoRules ethBlock.Header.Number ethBlock.Header.Time)).2.1) ∧
    (∀ err,
      vm.SyntacticVerify b (vm.CaminoRules ethBlock.Header.Number ethBlock.Header.Time)
        = some err →
      0 < ethBlock.Header.Number →
      (vm.GetBlockInternal ethBlock.ParentHash = .inr .otherType ∨
        ∃ parent, vm.GetBlockInternal ethBlock.ParentHash = .inr (.block parent) ∧
          parent.ethBlock = none) →
      (syntacticVerify vm d (some b)).1 = some (.errorf "cannot extract block") ∧
      (syntacticVerify vm d (some b)).2.1 = (DeferedChecks.Verify vm d b
        (vm.CaminoRules ethBlock.Header.Number ethBlock.Header.Time)).2.1) := by
  unfold syntacticVerify
  simp only [hBody]
  rcases hV : DeferedChecks.Verify vm d b
    (vm.CaminoRules ethBlock.Header.Number ethBlock.Header.Time) with ⟨o, d2, ev⟩
  rw [hV] at hResolved
  simp only at hResolved
  subst hResolved
  refine ⟨?_, ?_, ?_, ?_⟩
  · intro hOwn
    simp [hOwn]
  · intro hGen
    cases hOwn : vm.SyntacticVerify b
        (vm.CaminoRules ethBlock.Header.Number ethBlock.Header.Time) with
    | none => simp
    | some e => simp [hGen]
  · intro err parent pe hOwn hNum hP hPe
    simp [hOwn, hNum, hP, hPe]
  · intro err hOwn hNum hP
    rcases hP with hP | ⟨parent, hP, hPe⟩
    · simp [hOwn, hNum, hP]
    · simp [hOwn, hNum, hP, hPe]

/-- C15, witness: block 2 passes under its own rule-set 1; block 2 at time 500
fails under its own rule-set 0, its parent is known locally with time 2000, and
the verdict is the one under the parent's rule-set 1. -/
theorem syntacticVerify_verdict_witness :
    ((DeferedChecks.Verify (exampleVM (exampleLedger 0 0 0 0)) DeferedChecks.NewDeferedChecks
        (exampleBlock 2 1 10 2000 [])
        ((exampleVM (exampleLedger 0 0 0 0)).CaminoRules 10 2000)).1 = none ∧
      (exampleVM (exampleLedger 0 0 0 0)).SyntacticVerify (exampleBlock 2 1 10 2000 [])
        ((exampleVM (exampleLedger 0 0 0 0)).CaminoRules 10 2000) = none ∧
      (syntacticVerify (exampleVM (exampleLedger 0 0 0 0)) DeferedChecks.NewDeferedChecks
        (some (exampleBlock 2 1 10 2000 []))).1 = none) ∧
    ((DeferedChecks.Verify
        (exampleParentVM (exampleLedger 0 0 0 0) (exampleBlock 1 0 9 2000 []))
        DeferedChecks.NewDeferedChecks (exampleBlock 2 1 10 500 [])
        ((exampleParentVM (exampleLedger 0 0 0 0) (exampleBlock 1 0 9 2000 [])).CaminoRules
          10 500)).1 = none ∧
      (exampleParentVM (exampleLedger 0 0 0 0) (exampleBlock 1 0 9 2000 [])).SyntacticVerify
        (exampleBlock 2 1 10 500 [])
        ((exampleParentVM (exampleLedger 0 0 0 0) (exampleBlock 1 0 9 2000 [])).CaminoRules
          10 500) = some (.foreign 1) ∧
      0 < (10 : Nat) ∧
      (exampleParentVM (exampleLedger 0 0 0 0) (exampleBlock 1 0 9 2000 [])).GetBlockInternal 1
        = .inr (.block (exampleBlock 1 0 9 2000 [])) ∧
      (syntacticVerify (exampleParentVM (exampleLedger 0 0 0 0) (exampleBlock 1 0 9 2000 []))
        DeferedChecks.NewDeferedChecks (some (exampleBlock 2 1 10 500 []))).1 =
        (exampleParentVM (exampleLedger 0 0 0 0) (exampleBlock 1 0 9 2000 [])).SyntacticVerify
          (exampleBlock 2 1 10 500 [])
          ((exampleParentVM (exampleLedger 0 0 0 0) (exampleBlock 1 0 9 2000 [])).CaminoRules
            9 2000)) :=
  ⟨⟨by decide, by decide,
      ((syntacticVerify_verdict (exampleVM (exampleLedger 0 0 0 0))
        DeferedChecks.NewDeferedChecks (exampleBlock 2 1 10 2000 []) ⟨2, ⟨1, 10, 2000⟩⟩ rfl
        (by decide)).1 (by decide)).1⟩,
    ⟨by decide, by decide, by decide, rfl,
      ((syntacticVerify_verdict
        (exampleParentVM (exampleLedger 0 0 0 0) (exampleBlock 1 0 9 2000 []))
        DeferedChecks.NewDeferedChecks (exampleBlock 2 1 10 500 []) ⟨2, ⟨1, 10, 500⟩⟩ rfl
        (by decide)).2.2.1 (.foreign 1) (exampleBlock 1 0 9 2000 []) ⟨1, ⟨0, 9, 2000⟩⟩
        (by decide) (by decide) rfl rfl).1⟩⟩

/-- C16: when a child is pending under the id of a block with a body and fails
validation under the rules resolved from that block's own height and timestamp,
`syntacticVerify` of the block returns that failure after this single validator
call: the block's own body is not validated, the block is not pushed into the
registry, and the pending entry is removed while every other entry stays. -/
theorem syntacticVerify_pending_child_fails (vm : VM) (d : DeferedChecks) (b : Block)
    (ethBlock : EthBlock) (child : Block) (err : GoError)
    (hBody : b.ethBlock = some ethBlock)
    (hPending : d.get b.id = some child)
    (hFail : vm.SyntacticVerify child
      (vm.CaminoRules ethBlock.Header.Number ethBlock.Header.Time) = some err) :
    (syntacticVerify vm d (some b)).1 = some err ∧
    (syntacticVerify vm d (some b)).2.2 =
      [.SyntacticVerify child (vm.CaminoRules ethBlock.Header.Number ethBlock.Header.Time)] ∧
    (syntacticVerify vm d (some b)).2.1 = d.delete b.id ∧
    (syntacticVerify vm d (some b)).2.1.get b.id = none ∧
    (∀ id, id ≠ b.id → (syntacticVerify vm d (some b)).2.1.get id = d.get id) := by
  have key : syntacticVerify vm d (some b) =
      (some err, d.delete b.id,
        [.SyntacticVerify child (vm.CaminoRules ethBlock.Header.Number ethBlock.Header.Time)]) := by
    unfold syntacticVerify DeferedChecks.Verify
    simp [hBody, hPending, hFail]
  rw [key]
  exact ⟨rfl, rfl, rfl, DeferedChecks.get_delete_self d b.id,
    fun id hne => DeferedChecks.get_delete_ne d b.id id hne⟩

/-- C16, witness: the child 78 is pending under id 2 and fails under block 2's
rule-set 0. -/
theorem syntacticVerify_pending_child_fails_witness :
    (DeferedChecks.NewDeferedChecks.Push 2 (exampleBlock 78 2 11 600 [])).get 2 =
      some (exampleBlock 78 2 11 600 []) ∧
    (exampleVM (exampleLedger 0 0 0 0)).SyntacticVerify (exampleBlock 78 2 11 600 [])
      ((exampleVM (exampleLedger 0 0 0 0)).CaminoRules 10 500) = some (.foreign 1) ∧
    (syntacticVerify (exampleVM (exampleLedger 0 0 0 0))
      (DeferedChecks.NewDeferedChecks.Push 2 (exampleBlock 78 2 11 600 []))
      (some (exampleBlock 2 1 10 500 []))).1 = some (.foreign 1) ∧
    (syntacticVerify (exampleVM (exampleLedger 0 0 0 0))
      (DeferedChecks.NewDeferedChecks.Push 2 (exampleBlock 78 2 11 600 []))
      (some (exampleBlock 2 1 10 500 []))).2.2 =
      [.SyntacticVerify (exampleBlock 78 2 11 600 [])
        ((exampleVM (exampleLedger 0 0 0 0)).CaminoRules 10 500)] :=
  ⟨by decide, by decide,
    (syntacticVerify_pending_child_fails (exampleVM (exampleLedger 0 0 0 0))
      (DeferedChecks.NewDeferedChecks.Push 2 (exampleBlock 78 2 11 600 []))
      (exampleBlock 2 1 10 500 []) ⟨2, ⟨1, 10, 500⟩⟩ (exampleBlock 78 2 11 600 [])
      (.foreign 1) rfl (by decide) (by decide)).1,
    (syntacticVerify_pending_child_fails (exampleVM (exampleLedger 0 0 0 0))
      (DeferedChecks.NewDeferedChecks.Push 2 (exampleBlock 78 2 11 600 []))
      (exampleBlock 2 1 10 500 []) ⟨2, ⟨1, 10, 500⟩⟩ (exampleBlock 78 2 11 600 [])
      (.foreign 1) rfl (by decide) (by decide)).2.1⟩


/-! ## The 64-bit reward arithmetic -/

/-- With the denominator 1000000 of the specification nothing leaves 64 bits:
each part is at most the amount, the two parts add up below 2^64, and the burn
remainder is non-negative. -/
theorem specRate_fits (amt : Nat) (h : amt < 2 ^ 64) :
    specRate amt ExportRewardRate ≤ amt ∧
    specRate amt IncentivePoolRewardRate ≤ amt ∧
    specRate amt ExportRewardRate + specRate amt IncentivePoolRewardRate < 2 ^ 64 ∧
    specRate amt ExportRewardRate + specRate amt IncentivePoolRewardRate ≤
      (specRate amt ExportRewardRate + specRate amt IncentivePoolRewardRate) * 1000000 /
        (ExportRewardRate + IncentivePoolRewardRate) := by
  have h64 : (2 : Nat) ^ 64 = 18446744073709551616 := by norm_num
  rw [h64] at h ⊢
  simp only [specRate, ExportRewardRate, IncentivePoolRewardRate]
  omega

/-- C21, the code at the failing inputs, all below 2^64. The code divides by
`RateDenominator = 1`. For amount 1000000 each `calculateRate` result is
300000000000, above the amount, and the burn remainder
`floor((E + I) * 1 / 600000) - (E + I)` is 1000000 - 600000000000, negative: the
`uint64` subtraction underflows to 18446743473710551616. For amount 4 * 10^13
the two parts are 1.2 * 10^19 each and their sum, 2.4 * 10^19, does not fit in 64
bits: it wraps to 5553255926290448384. For amount 2^59 the product
2^59 * 300000 does not fit in 64 bits and `calculateRate` returns 0. -/
theorem reward_arithmetic_overflows :
    (1000000 : Nat) < 2 ^ 64 ∧
    calculateRate 1000000 ExportRewardRate = 300000000000 ∧
    ¬ calculateRate 1000000 ExportRewardRate ≤ 1000000 ∧
    exportPlusIncentive 1000000 = 600000000000 ∧
    ((600000000000 * RateDenominator / (ExportRewardRate + IncentivePoolRewardRate) : Nat) : Int)
      - 600000000000 < 0 ∧
    amountToBurn 1000000 = 18446743473710551616 ∧
    (40000000000000 : Nat) < 2 ^ 64 ∧
    calculateRate 40000000000000 ExportRewardRate = 12000000000000000000 ∧
    calculateRate 40000000000000 IncentivePoolRewardRate = 12000000000000000000 ∧
    ¬ (12000000000000000000 + 12000000000000000000 < 2 ^ 64) ∧
    exportPlusIncentive 40000000000000 = 5553255926290448384 ∧
    (2 ^ 59 : Nat) < 2 ^ 64 ∧
    ¬ (2 ^ 59 * ExportRewardRate / RateDenominator < 2 ^ 64) ∧
    calculateRate (2 ^ 59) ExportRewardRate = 0 ∧
    calculateRate (2 ^ 59) ExportRewardRate ≠ 2 ^ 59 * ExportRewardRate / RateDenominator := by
  decide


end Coreth
